import Mathlib

/-!
Shallow embedding of folly's fiber manager
(`folly/experimental/fibers/FiberManager-inl.h`, 2015).

The manager state is a record `FM`; fibers live in an index-addressed
arena (`Nat → Fiber`), following the intrusive-pointer structure of the
source.  Fiber task bodies are modelled as scripts: a list of suspension
events (`BodyStep`) followed by a final outcome (`ret`).  C++ exceptions
are modelled with `Except Err`; `folly::Try<T>` is `Except Err T`.
Fault-hook invocations (`exceptionCallback_`) and callback invocations
are recorded in an event log so that "invoked exactly once", "reported
to the hook with a phase description" and ordering facts are stateable.

Code of the repository that is not part of `FiberManager-inl.h`
(`Fiber.cpp` / `FiberManager.h`: `Fiber::preempt`, the fiber-side
trampoline that runs the installed functor, `FiberManager::getFiber`)
is modelled from the spec; those definitions say so in their doc
comments.  Everything else is translated line by line from the header.
-/

namespace FollyFibers

/-- Identity of a C++ exception object (opaque payload). -/
abbrev Err := Nat

/-- Per-fiber local data blob (`Fiber::localData_`), modelled as an
opaque value; C++ copy-assignment of the blob is value copy. -/
abbrev LocalData := Nat

/-- The phase-description strings passed to `exceptionCallback_`. -/
inductive Phase
  /-- `"running immediateFunc_"` (FiberManager-inl.h line 54). -/
  | runningImmediateFunc
  /-- `"running Func functor"` (line 157, `AddTaskHelper::Func`). -/
  | runningFuncFunctor
  /-- phase used by the fiber-side trampoline for a raw task functor
      (`Fiber.cpp`, not in the header; modelled from the spec). -/
  | runningFunc
  /-- `"running Finally functor"` (line 244, `AddTaskFinallyHelper::Finally`). -/
  | runningFinallyFunctor
  /-- `"running finallyFunc_"` (line 76, `runReadyFiber`). -/
  | runningFinallyFuncSlot
deriving DecidableEq

/-- `Fiber::state_` (FiberManager-inl.h uses `NOT_STARTED`, `READY_TO_RUN`,
`AWAITING_IMMEDIATE`, `AWAITING`, `INVALID`; `RUNNING` is implicit while
the fiber is swapped in). -/
inductive FiberState
  | NOT_STARTED
  | READY_TO_RUN
  | AWAITING_IMMEDIATE
  | AWAITING
  | INVALID
deriving DecidableEq

deriving instance DecidableEq for Except

/-- One suspension event of a fiber body.  Each time the scheduler jumps
into the fiber, the body runs up to its next event (or to its return). -/
inductive BodyStep
  /-- The body calls `runInMainContext`: `immediateFunc_` is installed and
      the fiber preempts to `AWAITING_IMMEDIATE`.  `boundary` is what
      invoking the installed `immediateFunc_` does on the main context:
      for the non-void overload the installed lambda captures the result
      via `makeTryFunction` and never throws (`boundary = .ok ()`); for
      the void overload the raw callable is installed, so `boundary` is
      the callable's own outcome. -/
  | immediateStep (boundary : Except Err Unit)
  /-- The body suspends via the await protocol: `awaitFunc_` is installed
      (identified by `id`) and the fiber goes to `AWAITING`. -/
  | awaitStep (id : Nat)
deriving DecidableEq

/-- How the fiber's installed function handles the body's return
(which wrapper `setFunction`/`setFunctionFinally` installed). -/
inductive TaskKind
  /-- `addTask`: body wrapped in `AddTaskHelper::Func`, which catches any
      fault and reports it to the hook as `runningFuncFunctor`. -/
  | plainLocal
  /-- remote task unpacked in `loopUntilNoReady`: the raw functor is
      installed; the fiber-side trampoline (not in the header; modelled
      from the spec as catching task faults to the hook) reports a fault
      as `runningFunc`. -/
  | plainRemote
  /-- `addTaskFinally`: body wrapped in `AddTaskFinallyHelper::Func`,
      which stores `makeTryFunction(func)` into the shared result slot
      and never lets a fault escape. -/
  | withFinally
deriving DecidableEq

/-- A fiber (arena slot).  `script` is the remaining suspension events of
the body; `ret` the body's final outcome (value or fault); `captured` the
`folly::Optional<folly::Try<Result>>` result slot shared between
`AddTaskFinallyHelper::Func` and `::Finally`; `finallyBehavior` the
user `finally` callable's behavior given the delivered `Try`. -/
structure Fiber where
  state : FiberState := .INVALID
  kind : TaskKind := .plainLocal
  script : List BodyStep := []
  ret : Except Err Nat := .ok 0
  captured : Option (Except Err Nat) := none
  funcPresent : Bool := false
  resultFuncPresent : Bool := false
  finallyPresent : Bool := false
  finallyBehavior : Except Err Nat → Except Err Unit := fun _ => .ok ()
  localData : Option LocalData := none
  deleted : Bool := false

/-- A cross-thread task envelope (`FiberManager::RemoteTask`). -/
structure RemoteTask where
  script : List BodyStep := []
  ret : Except Err Nat := .ok 0
  localData : Option LocalData := none
deriving DecidableEq

/-- Observable events recorded while the manager runs. -/
inductive Event
  /-- `exceptionCallback_(e, phase)` was invoked. -/
  | hook (e : Err) (phase : Phase)
  /-- `immediateFunc_()` was invoked on the main context (line 52). -/
  | immediateInvoked
  /-- `awaitFunc_(*fiber)` was invoked (line 62). -/
  | awaitInvoked (id : Nat)
  /-- the finally callable was invoked with the captured outcome (line 74). -/
  | finallyInvoked (received : Except Err Nat)
deriving DecidableEq

/-- The manager (`FiberManager`) plus the thread-local registries.
`arena` maps fiber ids to fiber records; ids `≥ nextId` are unallocated.
`wakeRequests` counts `loopController_->scheduleThreadSafe()` calls and
`scheduleRequests` counts `loopController_->schedule()` calls. -/
structure FM where
  arena : Nat → Fiber := fun _ => {}
  nextId : Nat := 0
  readyFibers : List Nat := []
  remoteReadyQueue : List Nat := []
  remoteTaskQueue : List RemoteTask := []
  fibersPool : List Nat := []
  fibersAllocated : Nat := 0
  fibersActive : Nat := 0
  fibersPoolSize : Nat := 0
  maxFibersPoolSize : Nat := 1000
  currentFiber : Option Nat := none
  activeFiber : Option Nat := none
  immediateFunc : Option (Except Err Unit) := none
  awaitFunc : Option Nat := none
  isLoopScheduled : Bool := false
  currentManagerSet : Bool := false
  log : List Event := []
  wakeRequests : Nat := 0
  scheduleRequests : Nat := 0

/-- The empty manager state. -/
def FM.init : FM := {}

/-- Apply an update to one arena slot. -/
def updateFiber (fm : FM) (fid : Nat) (g : Fiber → Fiber) : FM :=
  { fm with arena := Function.update fm.arena fid (g (fm.arena fid)) }

/-- Append an event to the log. -/
def logEvent (fm : FM) (ev : Event) : FM :=
  { fm with log := fm.log ++ [ev] }

/-- `exceptionCallback_(e, phase)`: record a fault-hook invocation. -/
def logHook (fm : FM) (e : Err) (p : Phase) : FM :=
  logEvent fm (Event.hook e p)

/-- The `(fault, phase)` pairs among a list of events. -/
def hookEntries (l : List Event) : List (Err × Phase) :=
  l.filterMap fun ev =>
    match ev with
    | .hook e p => some (e, p)
    | _ => none

/-- The sequence of `(fault, phase)` pairs delivered to the fault hook. -/
def hookLog (fm : FM) : List (Err × Phase) :=
  hookEntries fm.log

/-- `FiberManager::ensureLoopScheduled` (lines 32-39). -/
def ensureLoopScheduled (fm : FM) : FM :=
  if fm.isLoopScheduled then fm
  else { fm with isLoopScheduled := true,
                 scheduleRequests := fm.scheduleRequests + 1 }

/-- Modelled from the spec: `FiberManager::getFiber` is declared in
`FiberManager.h`, which is not part of the header under study.  Per the
spec (§4.3) acquisition prefers a pooled fiber, popping it from the pool,
otherwise allocates fresh and increments the allocation counter; the
acquired fiber is counted active.  Returns the updated state and the
fiber id. -/
def getFiber (fm : FM) : FM × Nat :=
  match fm.fibersPool with
  | fid :: rest =>
      ({ fm with fibersPool := rest,
                 fibersPoolSize := fm.fibersPoolSize - 1,
                 fibersActive := fm.fibersActive + 1 }, fid)
  | [] =>
      let fid := fm.nextId
      (updateFiber
        { fm with nextId := fm.nextId + 1,
                  fibersAllocated := fm.fibersAllocated + 1,
                  fibersActive := fm.fibersActive + 1 }
        fid (fun _ => {}), fid)

/-- Modelled from the spec: `Fiber::setFunction` (declared in `Fiber.h`,
not in the header) installs the task functor on an idle fiber and marks
it `NOT_STARTED`.  `kind` records which wrapper was installed. -/
def setFunction (fm : FM) (fid : Nat) (kind : TaskKind)
    (script : List BodyStep) (ret : Except Err Nat) : FM :=
  updateFiber fm fid fun f =>
    { f with state := .NOT_STARTED, kind := kind, script := script,
             ret := ret, captured := none, funcPresent := true,
             resultFuncPresent := false, finallyPresent := false }

/-- Modelled from the spec: `Fiber::setFunctionFinally` installs the
result-capturing wrapper (`resultFunc_`) and the finally wrapper
(`finallyFunc_`) and marks the fiber `NOT_STARTED`. -/
def setFunctionFinally (fm : FM) (fid : Nat) (script : List BodyStep)
    (ret : Except Err Nat) (fin : Except Err Nat → Except Err Unit) : FM :=
  updateFiber fm fid fun f =>
    { f with state := .NOT_STARTED, kind := .withFinally, script := script,
             ret := ret, captured := none, funcPresent := false,
             resultFuncPresent := true, finallyPresent := true,
             finallyBehavior := fin }

/-- Modelled from the spec: `jumpContext(&mainContext_, &fiber->fcontext_, ...)`
(line 49) resumes the fiber body, which runs until its next suspension
event or its return; the suspension/return mechanics live in `Fiber.cpp`
(not in the header).  A suspension event installs the corresponding
callback slot and sets the fiber's state (`Fiber::preempt`).  On return,
the installed wrapper handles the body outcome:
`AddTaskHelper::Func` (header lines 152-164) catches a fault and reports
it as `runningFuncFunctor`; a raw remote functor's fault is caught by the
fiber trampoline and reported as `runningFunc` (modelled from the spec's
"always caught at that exact boundary"); `AddTaskFinallyHelper::Func`
(header lines 267-275) stores `makeTryFunction(func)` in the shared
result slot and never throws.  The fiber then becomes `INVALID`. -/
def jumpContext (fm : FM) (fid : Nat) : FM :=
  let f := fm.arena fid
  match f.script with
  | step :: rest =>
      let fm := updateFiber fm fid fun fb => { fb with script := rest }
      match step with
      | .immediateStep boundary =>
          let fm := { fm with immediateFunc := some boundary }
          updateFiber fm fid fun fb => { fb with state := .AWAITING_IMMEDIATE }
      | .awaitStep id =>
          let fm := { fm with awaitFunc := some id }
          updateFiber fm fid fun fb => { fb with state := .AWAITING }
  | [] =>
      let fm :=
        match f.kind with
        | .plainLocal =>
            match f.ret with
            | .error e => logHook fm e Phase.runningFuncFunctor
            | .ok _ => fm
        | .plainRemote =>
            match f.ret with
            | .error e => logHook fm e Phase.runningFunc
            | .ok _ => fm
        | .withFinally =>
            updateFiber fm fid fun fb => { fb with captured := some f.ret }
      updateFiber fm fid fun fb => { fb with state := .INVALID }

/-- One iteration of the `while` loop of `runReadyFiber` (lines 46-59):
swap into the fiber; if it preempted with `AWAITING_IMMEDIATE`, invoke
`immediateFunc_()` on the main context under `try/catch` (lines 51-55, a
fault going to the hook as `runningImmediateFunc`), clear the slot (line
56) and set the fiber back to `READY_TO_RUN` (line 57) — re-entering the
same fiber without touching any queue. -/
def runReadyFiberStep (fm : FM) (fid : Nat) : FM :=
  let fm := { fm with activeFiber := some fid }
  let fm := jumpContext fm fid
  let fm := { fm with activeFiber := none }
  if (fm.arena fid).state = .AWAITING_IMMEDIATE then
    let fm :=
      match fm.immediateFunc with
      | some g =>
          let fm := logEvent fm Event.immediateInvoked
          match g with
          | .error e => logHook fm e Phase.runningImmediateFunc
          | .ok _ => fm
      | none => fm
    let fm := { fm with immediateFunc := none }
    updateFiber fm fid fun fb => { fb with state := .READY_TO_RUN }
  else fm

/-- The full `while` loop (lines 46-59): iterate `runReadyFiberStep`
while the fiber is `NOT_STARTED` or `READY_TO_RUN`.  `fuel` bounds the
iterations; `runReadyFiber` passes enough for the whole script. -/
def runReadyFiberGo : Nat → FM → Nat → FM
  | 0, fm, _ => fm
  | fuel + 1, fm, fid =>
      if (fm.arena fid).state = .NOT_STARTED ∨
         (fm.arena fid).state = .READY_TO_RUN then
        runReadyFiberGo fuel (runReadyFiberStep fm fid) fid
      else fm

/-- The invocation of `fiber->finallyFunc_()` (lines 72-79):
`AddTaskFinallyHelper::Finally::operator()` (lines 239-252) calls the
user `finally` with the captured `Try` and catches any fault, reporting
it as `runningFinallyFunctor` — so the outer `try/catch` of lines 73-77
(phase `runningFinallyFuncSlot`) never fires. -/
def runFinallySlot (fm : FM) (f : Fiber) : FM :=
  if f.finallyPresent then
    let received := f.captured.getD (.error 0)
    let fm := logEvent fm (Event.finallyInvoked received)
    match f.finallyBehavior received with
    | .error e => logHook fm e Phase.runningFinallyFunctor
    | .ok _ => fm
  else fm

/-- The `INVALID` branch of `runReadyFiber` (lines 64-90): decrement the
active count; clear `func_`/`resultFunc_`; if a finally wrapper is
installed, invoke it (`runFinallySlot`) and clear it; reset local data;
then either recycle the fiber into the pool (when below capacity) or
delete it permanently. -/
def finalizeFiber (fm : FM) (fid : Nat) : FM :=
  let f := fm.arena fid
  let fm := { fm with fibersActive := fm.fibersActive - 1 }
  let fm := updateFiber fm fid fun fb =>
    { fb with funcPresent := false, resultFuncPresent := false }
  let fm :=
    if f.finallyPresent then
      updateFiber (runFinallySlot fm f) fid
        fun fb => { fb with finallyPresent := false }
    else fm
  let fm := updateFiber fm fid fun fb => { fb with localData := none }
  if fm.fibersPoolSize < fm.maxFibersPoolSize then
    { fm with fibersPool := fid :: fm.fibersPool,
              fibersPoolSize := fm.fibersPoolSize + 1 }
  else
    let fm := updateFiber fm fid fun fb => { fb with deleted := true }
    { fm with fibersAllocated := fm.fibersAllocated - 1 }

/-- `FiberManager::runReadyFiber` (lines 41-92): set `currentFiber_`,
drive the fiber through the `AWAITING_IMMEDIATE` sub-loop; afterwards,
if it is `AWAITING`, invoke `awaitFunc_(*fiber)` once and clear the slot
(lines 61-63); if it is `INVALID`, finalize it (lines 64-90); clear
`currentFiber_`. -/
def runReadyFiber (fm : FM) (fid : Nat) : FM :=
  let fm := { fm with currentFiber := some fid }
  let fm := runReadyFiberGo ((fm.arena fid).script.length + 1) fm fid
  let f := fm.arena fid
  let fm :=
    if f.state = .AWAITING then
      let fm :=
        match fm.awaitFunc with
        | some id => logEvent fm (Event.awaitInvoked id)
        | none => fm
      { fm with awaitFunc := none }
    else if f.state = .INVALID then
      finalizeFiber fm fid
    else fm
  { fm with currentFiber := none }

/-- The inner ready-queue drain of `loopUntilNoReady` (lines 106-110):
`while (!readyFibers_.empty()) { pop_front; runReadyFiber; }`.
`fuel` bounds the iterations; the caller passes the queue length, which
suffices because `runReadyFiber` never enqueues to the ready queue. -/
def drainReady : Nat → FM → FM
  | 0, fm => fm
  | fuel + 1, fm =>
      match fm.readyFibers with
      | [] => fm
      | fid :: rest =>
          drainReady fuel (runReadyFiber { fm with readyFibers := rest } fid)

/-- `remoteReadyQueue_.sweep` (lines 112-117): atomically take all queued
fiber ids and run each (in FIFO order of insertion; `insertHead` pushes
at the head, the sweep reverses).  Returns the state and whether any
fiber was processed (`hadRemoteFiber`). -/
def sweepRemoteReady (fm : FM) : FM × Bool :=
  let items := fm.remoteReadyQueue.reverse
  let fm := { fm with remoteReadyQueue := [] }
  (items.foldl (fun s fid => runReadyFiber s fid) fm, !items.isEmpty)

/-- Unpack one remote task (lines 120-129): take a fiber from the pool or
allocate one, copy the task's local-data snapshot if present, install the
raw functor, and run the fiber. -/
def runRemoteTask (fm : FM) (task : RemoteTask) : FM :=
  let (fm, fid) := getFiber fm
  let fm :=
    match task.localData with
    | some d => updateFiber fm fid fun fb => { fb with localData := some d }
    | none => fm
  let fm := setFunction fm fid .plainRemote task.script task.ret
  runReadyFiber fm fid

/-- `remoteTaskQueue_.sweep` (lines 119-132): atomically take all queued
remote tasks and convert each into a running fiber. -/
def sweepRemoteTasks (fm : FM) : FM × Bool :=
  let items := fm.remoteTaskQueue.reverse
  let fm := { fm with remoteTaskQueue := [] }
  (items.foldl runRemoteTask fm, !items.isEmpty)

/-- The outer loop of `loopUntilNoReady` (lines 102-133): repeat — drain
the local ready queue fully, sweep the remote-ready queue once, sweep the
remote-task queue once — while either sweep produced work.  `fuel` bounds
the outer iterations; `loopUntilNoReady` passes enough for a model run
(in the single-threaded model nothing refills the remote queues, so two
passes always reach the fixed point). -/
def loopUntilNoReadyGo : Nat → FM → FM
  | 0, fm => fm
  | fuel + 1, fm =>
      let fm1 := drainReady fm.readyFibers.length fm
      let p1 := sweepRemoteReady fm1
      let p2 := sweepRemoteTasks p1.1
      if p1.2 || p2.2 then loopUntilNoReadyGo fuel p2.1 else p2.1

/-- `FiberManager::loopUntilNoReady` (lines 94-136): set the thread-local
current-manager registry, run the two-level loop, and on exit (the
`SCOPE_EXIT` of lines 95-98) clear `isLoopScheduled_` and the registry.
Returns `fibersActive_ > 0` together with the final state. -/
def loopUntilNoReady (fm : FM) : Bool × FM :=
  let fm := { fm with currentManagerSet := true }
  let fm := loopUntilNoReadyGo
    (fm.remoteReadyQueue.length + fm.remoteTaskQueue.length + 2) fm
  let fm := { fm with isLoopScheduled := false, currentManagerSet := false }
  (decide (0 < fm.fibersActive), fm)

/-- `FiberManager::addTask` (lines 172-196): take a fiber; if called from
inside a running fiber, copy that fiber's local-data into the new fiber;
install the task functor wrapped in `AddTaskHelper::Func` (the
in-buffer/heap placement decision of lines 181-190 affects storage only,
not behavior); push to the back of the local ready queue; request a
scheduling pass. -/
def addTask (fm : FM) (script : List BodyStep) (ret : Except Err Nat) : FM :=
  let (fm, fid) := getFiber fm
  let fm :=
    match fm.currentFiber with
    | some cur =>
        updateFiber fm fid fun fb =>
          { fb with localData := (fm.arena cur).localData }
    | none => fm
  let fm := setFunction fm fid .plainLocal script ret
  let fm := { fm with readyFibers := fm.readyFibers ++ [fid] }
  ensureLoopScheduled fm

/-- `FiberManager::addTaskFinally` (lines 283-327): take a fiber; copy the
submitting fiber's local-data if any; install the result-capturing `Func`
and the `Finally` wrapper (placement decision again storage-only); push to
the ready queue; request a scheduling pass. -/
def addTaskFinally (fm : FM) (script : List BodyStep) (ret : Except Err Nat)
    (fin : Except Err Nat → Except Err Unit) : FM :=
  let (fm, fid) := getFiber fm
  let fm :=
    match fm.currentFiber with
    | some cur =>
        updateFiber fm fid fun fb =>
          { fb with localData := (fm.arena cur).localData }
    | none => fm
  let fm := setFunctionFinally fm fid script ret fin
  let fm := { fm with readyFibers := fm.readyFibers ++ [fid] }
  ensureLoopScheduled fm

/-- `FiberManager::addTaskRemote` (lines 198-212), invoked on the target
manager `fm` from an arbitrary thread.  `callerFm` is the calling
thread's current-manager registry (`getFiberManagerUnsafe()`): when that
thread is running some manager's fiber, the task captures a snapshot of
that fiber's local-data.  The task envelope is pushed with `insertHead`,
which reports whether the queue was empty before the push (spec §6); only
then is `loopController_->scheduleThreadSafe()` invoked. -/
def addTaskRemote (fm : FM) (callerFm : Option FM)
    (script : List BodyStep) (ret : Except Err Nat) : FM :=
  let task : RemoteTask :=
    match callerFm with
    | some cfm =>
        match cfm.currentFiber with
        | some cur =>
            { script := script, ret := ret,
              localData := (cfm.arena cur).localData }
        | none => { script := script, ret := ret, localData := none }
    | none => { script := script, ret := ret, localData := none }
  let wasEmpty := fm.remoteTaskQueue.isEmpty
  let fm := { fm with remoteTaskQueue := task :: fm.remoteTaskQueue }
  if wasEmpty then { fm with wakeRequests := fm.wakeRequests + 1 } else fm

/-- Mutation of a fiber's local-data through `FiberManager::local<T>()`
(lines 384-390): `local<T>()` returns a mutable reference into
`currentFiber_->localData_`; writing through it updates that fiber's blob
in place. -/
def setLocalData (fm : FM) (fid : Nat) (d : LocalData) : FM :=
  updateFiber fm fid fun fb => { fb with localData := some d }

/-- Outcome of one full `runInMainContext` call as observed by its
caller: the value returned (or fault re-raised) at the call site, and
the final manager state. -/
def runInMainContextNonVoid (fm : FM) (f : Except Err Nat) :
    Except Err Nat × FM :=
  match fm.activeFiber with
  | none =>
      -- lines 340-342: `if (activeFiber_ == nullptr) return func();`
      -- runs in place; a fault propagates to the caller unchanged.
      (f, fm)
  | some _ =>
      -- lines 346-354 composed with the manager's handling (lines 50-58):
      -- `immediateFunc_` is set to a lambda storing
      -- `makeTryFunction(func)` into `result`; the fiber preempts; the
      -- manager invokes the lambda — it never throws, so the `catch` of
      -- line 53 adds no hook entry — clears the slot and resumes the
      -- fiber; the helper then returns `result.value()`, which re-raises
      -- `f`'s fault (if any) to the caller.
      (f, logEvent fm Event.immediateInvoked)

/-- The void overload (lines 357-369) composed with the manager's
handling: `immediateFunc_` is set to the raw callable (line 367), so a
fault is thrown on the main context, caught at line 53 and reported to
the hook as `runningImmediateFunc`; the helper then returns normally —
the fault is not re-raised to the caller. -/
def runInMainContextVoid (fm : FM) (f : Except Err Unit) :
    Except Err Unit × FM :=
  match fm.activeFiber with
  | none =>
      -- lines 362-365: `if (activeFiber_ == nullptr) { func(); return; }`
      (f, fm)
  | some _ =>
      match f with
      | .ok _ => (.ok (), logEvent fm Event.immediateInvoked)
      | .error e =>
          (.ok (), logHook (logEvent fm Event.immediateInvoked) e
            Phase.runningImmediateFunc)

/-- Fibers sitting in the ready queues (local ready plus remote-ready):
the spec's "queued" count. -/
def queuedCount (fm : FM) : Nat :=
  fm.readyFibers.length + fm.remoteReadyQueue.length

/-- The spec's "active" count: fibers acquired and not yet finalized that
are not sitting in a ready queue (running or awaiting).  The C++ counter
`fibersActive_` counts both queued and active fibers. -/
def specActive (fm : FM) : Nat := fm.fibersActive - queuedCount fm

/-- The counter invariant relating the C++ counters (`fibersAllocated_`,
`fibersActive_`, `fibersPoolSize_`) to the spec's accounting equation:
the pool-size counter matches the pool list, every queued fiber is
counted active, active + pooled fibers exhaust the allocation, and the
pool never exceeds its configured bound. -/
def countersOk (fm : FM) : Prop :=
  fm.fibersActive + fm.fibersPoolSize = fm.fibersAllocated ∧
  queuedCount fm ≤ fm.fibersActive ∧
  fm.fibersPoolSize = fm.fibersPool.length ∧
  fm.fibersPoolSize ≤ fm.maxFibersPoolSize

instance (fm : FM) : Decidable (countersOk fm) := by
  unfold countersOk; infer_instance

/-- Number of immediate-execution invocations recorded in a log. -/
def immInvocations (l : List Event) : Nat :=
  (l.filter fun ev => ev = Event.immediateInvoked).length

/-- Number of await-setup invocations recorded in a log. -/
def awaitInvocations (l : List Event) : Nat :=
  (l.filter fun ev =>
    match ev with
    | .awaitInvoked _ => true
    | _ => false).length

/-- The outcomes delivered to finally callables, in order. -/
def finallyDeliveries (l : List Event) : List (Except Err Nat) :=
  l.filterMap fun ev =>
    match ev with
    | .finallyInvoked r => some r
    | _ => none

/-- Number of immediate-execution requests a body issues before its first
await request (or before returning). -/
def leadingImmediates : List BodyStep → Nat
  | [] => 0
  | .immediateStep _ :: rest => leadingImmediates rest + 1
  | .awaitStep _ :: _ => 0

/-- Whether a body reaches an await request before returning. -/
def reachesAwait : List BodyStep → Bool
  | [] => false
  | .immediateStep _ :: rest => reachesAwait rest
  | .awaitStep _ :: _ => true

/-- The id of the first await request of a body, if any. -/
def firstAwaitId : List BodyStep → Option Nat
  | [] => none
  | .immediateStep _ :: rest => firstAwaitId rest
  | .awaitStep id :: _ => some id

/-- The events `runFinallySlot` appends for a given fiber record. -/
def finallyEventsOf (f : Fiber) : List Event :=
  if f.finallyPresent then
    Event.finallyInvoked (f.captured.getD (.error 0)) ::
      (match f.finallyBehavior (f.captured.getD (.error 0)) with
       | .error e => [Event.hook e Phase.runningFinallyFunctor]
       | .ok _ => [])
  else []

/-- The events generated when a fiber body returns and the fiber is
finalized: the wrapper's hook report (for a faulting plain body) followed
by the finally invocation (for an `addTaskFinally` fiber, acting on the
captured outcome). -/
def bodyReturnEvents (f : Fiber) : List Event :=
  match f.kind with
  | .plainLocal =>
      (match f.ret with
       | .error e => [Event.hook e Phase.runningFuncFunctor]
       | .ok _ => []) ++ finallyEventsOf f
  | .plainRemote =>
      (match f.ret with
       | .error e => [Event.hook e Phase.runningFunc]
       | .ok _ => []) ++ finallyEventsOf f
  | .withFinally => finallyEventsOf { f with captured := some f.ret }

/-- Fields of the manager that one loop iteration on a fiber never
touches: queues, pool, counters, scheduling flags. -/
def schedFrame (a b : FM) : Prop :=
  b.readyFibers = a.readyFibers ∧
  b.remoteReadyQueue = a.remoteReadyQueue ∧
  b.remoteTaskQueue = a.remoteTaskQueue ∧
  b.fibersPool = a.fibersPool ∧
  b.fibersActive = a.fibersActive ∧
  b.fibersAllocated = a.fibersAllocated ∧
  b.fibersPoolSize = a.fibersPoolSize ∧
  b.maxFibersPoolSize = a.maxFibersPoolSize ∧
  b.wakeRequests = a.wakeRequests ∧
  b.isLoopScheduled = a.isLoopScheduled

/-- The inner pass as the spec words it (§4.2): drain the local ready
queue fully, then sweep the remote-ready queue once and the remote-task
queue once, reporting whether any remote queue produced work.  Written
from the spec's words, to be compared with the source translation
`loopUntilNoReady`. -/
def specInnerPass (fm : FM) : FM × Bool :=
  let afterLocal := drainReady fm.readyFibers.length fm
  let readySweep := sweepRemoteReady afterLocal
  let taskSweep := sweepRemoteTasks readySweep.1
  (taskSweep.1, readySweep.2 || taskSweep.2)

/-- The outer fixed point as the spec words it: repeat the inner pass
while the previous pass obtained work from a remote queue. -/
def specOuterLoop : Nat → FM → FM
  | 0, fm => fm
  | n + 1, fm =>
      match specInnerPass fm with
      | (fm2, true) => specOuterLoop n fm2
      | (fm2, false) => fm2

/-- The whole call as the spec words it: mark the manager current, run
the two-level fixed point, clear the scheduling flag and the registry,
and report whether any fiber remains active. -/
def loopUntilNoReadySpec (fm : FM) : Bool × FM :=
  let entered := { fm with currentManagerSet := true }
  let finished := specOuterLoop
    (entered.remoteReadyQueue.length + entered.remoteTaskQueue.length + 2)
    entered
  let closed :=
    { finished with isLoopScheduled := false, currentManagerSet := false }
  (decide (0 < closed.fibersActive), closed)

/-- The id `getFiber` hands out from a given state: the pool head if the
pool is non-empty, else a fresh slot. -/
def newFiberId (fm : FM) : Nat :=
  match fm.fibersPool with
  | fid :: _ => fid
  | [] => fm.nextId

/-- A concrete manager whose fiber 0 requests one (faulting) immediate
execution before returning. -/
def fmC4 : FM := addTask FM.init [.immediateStep (.error 1)] (.ok 0)

/-- A concrete manager running fiber 0, whose local-data blob holds 11. -/
def fmC8 : FM :=
  setLocalData { FM.init with nextId := 1, currentFiber := some 0 } 0 11

/-- A concrete manager holding one local task whose body faults with 3. -/
def fmC2 : FM := addTask FM.init [] (.error 3)

/-- A concrete finally callable: re-raise the received fault shifted by
10, succeed on a received success. -/
def gC3 : Except Err Nat → Except Err Unit := fun r =>
  match r with
  | .error e => .error (e + 10)
  | .ok _ => .ok ()

/-- A concrete manager holding one `addTaskFinally` task whose body
faults with 4 and whose finally callable is `gC3`. -/
def fmC3 : FM := addTaskFinally FM.init [] (.error 4) gC3

/-- A concrete manager with one task that requests one immediate
execution and then suspends on an await. -/
def fmC10 : FM :=
  addTask FM.init [.immediateStep (.ok ()), .awaitStep 42] (.ok 0)

/-- A concrete manager satisfying the counter invariant: one task queued
and one fiber pooled. -/
def fmC5 : FM :=
  { addTask FM.init [] (.ok 0) with
    fibersPool := [7], fibersPoolSize := 1, fibersAllocated := 2,
    nextId := 8 }

/-! ## General lemmas about the log -/

@[simp] theorem hookEntries_nil : hookEntries [] = [] := rfl

@[simp] theorem hookEntries_append (a b : List Event) :
    hookEntries (a ++ b) = hookEntries a ++ hookEntries b := by
  simp [hookEntries]

@[simp] theorem hookEntries_cons_hook (e : Err) (p : Phase)
    (l : List Event) :
    hookEntries (Event.hook e p :: l) = (e, p) :: hookEntries l := by
  simp [hookEntries]

@[simp] theorem hookEntries_cons_immediate (l : List Event) :
    hookEntries (Event.immediateInvoked :: l) = hookEntries l := by
  simp [hookEntries]

@[simp] theorem hookEntries_cons_await (id : Nat) (l : List Event) :
    hookEntries (Event.awaitInvoked id :: l) = hookEntries l := by
  simp [hookEntries]

@[simp] theorem hookEntries_cons_finally (r : Except Err Nat)
    (l : List Event) :
    hookEntries (Event.finallyInvoked r :: l) = hookEntries l := by
  simp [hookEntries]

theorem hookLog_logHook (fm : FM) (e : Err) (p : Phase) :
    hookLog (logHook fm e p) = hookLog fm ++ [(e, p)] := by
  simp [hookLog, logHook, logEvent]

theorem hookLog_logEvent_immediate (fm : FM) :
    hookLog (logEvent fm Event.immediateInvoked) = hookLog fm := by
  simp [hookLog, logEvent]

theorem arena_updateFiber_self (fm : FM) (fid : Nat) (g : Fiber → Fiber) :
    (updateFiber fm fid g).arena fid = g (fm.arena fid) := by
  simp [updateFiber]

theorem arena_updateFiber_other (fm : FM) (fid j : Nat) (g : Fiber → Fiber)
    (h : j ≠ fid) : (updateFiber fm fid g).arena j = fm.arena j := by
  simp [updateFiber, Function.update_noteq h]

@[simp] theorem updateFiber_readyFibers (fm : FM) (fid : Nat)
    (g : Fiber → Fiber) :
    (updateFiber fm fid g).readyFibers = fm.readyFibers := rfl

@[simp] theorem updateFiber_remoteReadyQueue (fm : FM) (fid : Nat)
    (g : Fiber → Fiber) :
    (updateFiber fm fid g).remoteReadyQueue = fm.remoteReadyQueue := rfl

@[simp] theorem updateFiber_remoteTaskQueue (fm : FM) (fid : Nat)
    (g : Fiber → Fiber) :
    (updateFiber fm fid g).remoteTaskQueue = fm.remoteTaskQueue := rfl

@[simp] theorem updateFiber_fibersPool (fm : FM) (fid : Nat)
    (g : Fiber → Fiber) :
    (updateFiber fm fid g).fibersPool = fm.fibersPool := rfl

@[simp] theorem updateFiber_log (fm : FM) (fid : Nat) (g : Fiber → Fiber) :
    (updateFiber fm fid g).log = fm.log := rfl

@[simp] theorem updateFiber_immediateFunc (fm : FM) (fid : Nat)
    (g : Fiber → Fiber) :
    (updateFiber fm fid g).immediateFunc = fm.immediateFunc := rfl

@[simp] theorem updateFiber_awaitFunc (fm : FM) (fid : Nat)
    (g : Fiber → Fiber) :
    (updateFiber fm fid g).awaitFunc = fm.awaitFunc := rfl

@[simp] theorem updateFiber_counters (fm : FM) (fid : Nat)
    (g : Fiber → Fiber) :
    (updateFiber fm fid g).fibersActive = fm.fibersActive ∧
    (updateFiber fm fid g).fibersAllocated = fm.fibersAllocated ∧
    (updateFiber fm fid g).fibersPoolSize = fm.fibersPoolSize ∧
    (updateFiber fm fid g).maxFibersPoolSize = fm.maxFibersPoolSize :=
  ⟨rfl, rfl, rfl, rfl⟩

@[simp] theorem logEvent_arena (fm : FM) (ev : Event) :
    (logEvent fm ev).arena = fm.arena := rfl

@[simp] theorem logEvent_log (fm : FM) (ev : Event) :
    (logEvent fm ev).log = fm.log ++ [ev] := rfl

theorem runFinallySlot_eq (fm : FM) (f : Fiber) :
    runFinallySlot fm f = { fm with log := fm.log ++ finallyEventsOf f } := by
  unfold runFinallySlot finallyEventsOf logEvent logHook
  split
  · split <;> rename_i heq <;> simp [heq, logEvent]
  · simp

theorem finalizeFiber_readyFibers (fm : FM) (fid : Nat) :
    (finalizeFiber fm fid).readyFibers = fm.readyFibers := by
  simp only [finalizeFiber, runFinallySlot_eq]
  split <;> split <;> rfl

theorem finalizeFiber_remoteReadyQueue (fm : FM) (fid : Nat) :
    (finalizeFiber fm fid).remoteReadyQueue = fm.remoteReadyQueue := by
  simp only [finalizeFiber, runFinallySlot_eq]
  split <;> split <;> rfl

theorem finalizeFiber_remoteTaskQueue (fm : FM) (fid : Nat) :
    (finalizeFiber fm fid).remoteTaskQueue = fm.remoteTaskQueue := by
  simp only [finalizeFiber, runFinallySlot_eq]
  split <;> split <;> rfl

theorem finalizeFiber_immediateFunc (fm : FM) (fid : Nat) :
    (finalizeFiber fm fid).immediateFunc = fm.immediateFunc := by
  simp only [finalizeFiber, runFinallySlot_eq]
  split <;> split <;> rfl

theorem finalizeFiber_awaitFunc (fm : FM) (fid : Nat) :
    (finalizeFiber fm fid).awaitFunc = fm.awaitFunc := by
  simp only [finalizeFiber, runFinallySlot_eq]
  split <;> split <;> rfl

theorem finalizeFiber_log (fm : FM) (fid : Nat) :
    (finalizeFiber fm fid).log = fm.log ++ finallyEventsOf (fm.arena fid)
    := by
  simp only [finalizeFiber, runFinallySlot_eq]
  split
  · split <;> simp [finallyEventsOf]
  next hfin =>
    split <;> simp [finallyEventsOf, hfin]

theorem finalizeFiber_fibersActive (fm : FM) (fid : Nat) :
    (finalizeFiber fm fid).fibersActive = fm.fibersActive - 1 := by
  simp only [finalizeFiber, runFinallySlot_eq]
  split <;> split <;> rfl

theorem finalizeFiber_maxPool (fm : FM) (fid : Nat) :
    (finalizeFiber fm fid).maxFibersPoolSize = fm.maxFibersPoolSize := by
  simp only [finalizeFiber, runFinallySlot_eq]
  split <;> split <;> rfl

theorem finalizeFiber_recycle (fm : FM) (fid : Nat)
    (h : fm.fibersPoolSize < fm.maxFibersPoolSize) :
    (finalizeFiber fm fid).fibersPoolSize = fm.fibersPoolSize + 1 ∧
    (finalizeFiber fm fid).fibersAllocated = fm.fibersAllocated ∧
    (finalizeFiber fm fid).fibersPool = fid :: fm.fibersPool := by
  simp only [finalizeFiber, runFinallySlot_eq]
  constructor
  · split <;> split <;> first | rfl | exact absurd h (by assumption)
  constructor
  · split <;> split <;> first | rfl | exact absurd h (by assumption)
  · split <;> split <;> first | rfl | exact absurd h (by assumption)

theorem finalizeFiber_dealloc (fm : FM) (fid : Nat)
    (h : ¬ fm.fibersPoolSize < fm.maxFibersPoolSize) :
    (finalizeFiber fm fid).fibersPoolSize = fm.fibersPoolSize ∧
    (finalizeFiber fm fid).fibersAllocated = fm.fibersAllocated - 1 ∧
    (finalizeFiber fm fid).fibersPool = fm.fibersPool := by
  simp only [finalizeFiber, runFinallySlot_eq]
  constructor
  · split <;> split <;> first | rfl | exact absurd (by assumption) h
  constructor
  · split <;> split <;> first | rfl | exact absurd (by assumption) h
  · split <;> split <;> first | rfl | exact absurd (by assumption) h

theorem finalizeFiber_arena_self (fm : FM) (fid : Nat) :
    ((finalizeFiber fm fid).arena fid).state = (fm.arena fid).state ∧
    ((finalizeFiber fm fid).arena fid).finallyPresent = false ∧
    ((finalizeFiber fm fid).arena fid).funcPresent = false ∧
    ((finalizeFiber fm fid).arena fid).resultFuncPresent = false ∧
    ((finalizeFiber fm fid).arena fid).localData = none := by
  by_cases h1 : (fm.arena fid).finallyPresent = true <;>
  by_cases h2 : fm.fibersPoolSize < fm.maxFibersPoolSize <;>
    simp [finalizeFiber, runFinallySlot_eq, h1, h2, updateFiber,
      Function.update_same]

/-- Running a fiber whose body issues no further suspension: the body
returns, its wrapper handles the outcome, the fiber becomes `INVALID`
and is finalized.  Characterizes the log and the untouched fields. -/
theorem runReadyFiber_completed (fm : FM) (fid : Nat)
    (hstate : (fm.arena fid).state = .NOT_STARTED ∨
              (fm.arena fid).state = .READY_TO_RUN)
    (hscript : (fm.arena fid).script = []) :
    (runReadyFiber fm fid).log
        = fm.log ++ bodyReturnEvents (fm.arena fid) ∧
    (runReadyFiber fm fid).readyFibers = fm.readyFibers ∧
    (runReadyFiber fm fid).remoteReadyQueue = fm.remoteReadyQueue ∧
    (runReadyFiber fm fid).remoteTaskQueue = fm.remoteTaskQueue ∧
    (runReadyFiber fm fid).immediateFunc = fm.immediateFunc ∧
    (runReadyFiber fm fid).awaitFunc = fm.awaitFunc ∧
    ((runReadyFiber fm fid).arena fid).state = .INVALID ∧
    ((runReadyFiber fm fid).arena fid).finallyPresent = false ∧
    (runReadyFiber fm fid).fibersActive = fm.fibersActive - 1 := by
  rcases hstate with h | h <;>
  rcases hk : (fm.arena fid).kind with _ | _ | _ <;>
  rcases hr : (fm.arena fid).ret with e | v <;>
    simp [runReadyFiber, runReadyFiberGo, runReadyFiberStep, jumpContext,
      bodyReturnEvents, finallyEventsOf, hscript, h, hk, hr,
      updateFiber, Function.update_same, logHook, logEvent,
      finalizeFiber_log, finalizeFiber_readyFibers,
      finalizeFiber_remoteReadyQueue, finalizeFiber_remoteTaskQueue,
      finalizeFiber_immediateFunc, finalizeFiber_awaitFunc,
      finalizeFiber_fibersActive, finalizeFiber_arena_self]

@[simp] theorem finallyDeliveries_nil : finallyDeliveries [] = [] := rfl

@[simp] theorem finallyDeliveries_append (a b : List Event) :
    finallyDeliveries (a ++ b)
      = finallyDeliveries a ++ finallyDeliveries b := by
  simp [finallyDeliveries]

@[simp] theorem finallyDeliveries_cons_hook (e : Err) (p : Phase)
    (l : List Event) :
    finallyDeliveries (Event.hook e p :: l) = finallyDeliveries l := by
  simp [finallyDeliveries]

@[simp] theorem finallyDeliveries_cons_immediate (l : List Event) :
    finallyDeliveries (Event.immediateInvoked :: l)
      = finallyDeliveries l := by
  simp [finallyDeliveries]

@[simp] theorem finallyDeliveries_cons_await (id : Nat) (l : List Event) :
    finallyDeliveries (Event.awaitInvoked id :: l)
      = finallyDeliveries l := by
  simp [finallyDeliveries]

@[simp] theorem finallyDeliveries_cons_finally (r : Except Err Nat)
    (l : List Event) :
    finallyDeliveries (Event.finallyInvoked r :: l)
      = r :: finallyDeliveries l := by
  simp [finallyDeliveries]

theorem log_ensureLoopScheduled (fm : FM) :
    (ensureLoopScheduled fm).log = fm.log := by
  unfold ensureLoopScheduled
  split <;> rfl

@[simp] theorem immInvocations_nil : immInvocations [] = 0 := rfl

@[simp] theorem immInvocations_append (a b : List Event) :
    immInvocations (a ++ b) = immInvocations a + immInvocations b := by
  simp [immInvocations]

@[simp] theorem immInvocations_cons_immediate (l : List Event) :
    immInvocations (Event.immediateInvoked :: l)
      = immInvocations l + 1 := by
  simp [immInvocations, List.filter, Nat.add_comm]

@[simp] theorem immInvocations_cons_hook (e : Err) (p : Phase)
    (l : List Event) :
    immInvocations (Event.hook e p :: l) = immInvocations l := by
  simp [immInvocations, List.filter]

@[simp] theorem immInvocations_cons_await (id : Nat) (l : List Event) :
    immInvocations (Event.awaitInvoked id :: l) = immInvocations l := by
  simp [immInvocations, List.filter]

@[simp] theorem immInvocations_cons_finally (r : Except Err Nat)
    (l : List Event) :
    immInvocations (Event.finallyInvoked r :: l) = immInvocations l := by
  simp [immInvocations, List.filter]

@[simp] theorem awaitInvocations_nil : awaitInvocations [] = 0 := rfl

@[simp] theorem awaitInvocations_append (a b : List Event) :
    awaitInvocations (a ++ b)
      = awaitInvocations a + awaitInvocations b := by
  simp [awaitInvocations]

@[simp] theorem awaitInvocations_cons_immediate (l : List Event) :
    awaitInvocations (Event.immediateInvoked :: l)
      = awaitInvocations l := by
  simp [awaitInvocations, List.filter]

@[simp] theorem awaitInvocations_cons_hook (e : Err) (p : Phase)
    (l : List Event) :
    awaitInvocations (Event.hook e p :: l) = awaitInvocations l := by
  simp [awaitInvocations, List.filter]

@[simp] theorem awaitInvocations_cons_await (id : Nat) (l : List Event) :
    awaitInvocations (Event.awaitInvoked id :: l)
      = awaitInvocations l + 1 := by
  simp [awaitInvocations, List.filter, Nat.add_comm]

@[simp] theorem awaitInvocations_cons_finally (r : Except Err Nat)
    (l : List Event) :
    awaitInvocations (Event.finallyInvoked r :: l)
      = awaitInvocations l := by
  simp [awaitInvocations, List.filter]

theorem immInvocations_finallyEventsOf (f : Fiber) :
    immInvocations (finallyEventsOf f) = 0 := by
  unfold finallyEventsOf
  split
  · split <;> simp
  · simp

theorem awaitInvocations_finallyEventsOf (f : Fiber) :
    awaitInvocations (finallyEventsOf f) = 0 := by
  unfold finallyEventsOf
  split
  · split <;> simp
  · simp

theorem immInvocations_bodyReturnEvents (f : Fiber) :
    immInvocations (bodyReturnEvents f) = 0 := by
  unfold bodyReturnEvents
  split <;> try split
  all_goals
    simp [immInvocations_finallyEventsOf]

theorem awaitInvocations_bodyReturnEvents (f : Fiber) :
    awaitInvocations (bodyReturnEvents f) = 0 := by
  unfold bodyReturnEvents
  split <;> try split
  all_goals
    simp [awaitInvocations_finallyEventsOf]

/-- A fiber that is neither `NOT_STARTED` nor `READY_TO_RUN` is not
re-entered: the loop leaves the state alone. -/
theorem runReadyFiberGo_stuck (fuel : Nat) (fm : FM) (fid : Nat)
    (h : ¬ ((fm.arena fid).state = .NOT_STARTED ∨
            (fm.arena fid).state = .READY_TO_RUN)) :
    runReadyFiberGo fuel fm fid = fm := by
  cases fuel with
  | zero => rfl
  | succ n => rw [runReadyFiberGo, if_neg h]

theorem firstAwaitId_of_reachesAwait (s : List BodyStep)
    (h : reachesAwait s = true) : ∃ id, firstAwaitId s = some id := by
  induction s with
  | nil => simp [reachesAwait] at h
  | cons st rest ih =>
      cases st with
      | immediateStep b =>
          rw [reachesAwait] at h
          rw [firstAwaitId]
          exact ih h
      | awaitStep id => exact ⟨id, rfl⟩

theorem firstAwaitId_of_not_reachesAwait (s : List BodyStep)
    (h : reachesAwait s = false) : firstAwaitId s = none := by
  induction s with
  | nil => rfl
  | cons st rest ih =>
      cases st with
      | immediateStep b =>
          rw [reachesAwait] at h
          rw [firstAwaitId]
          exact ih h
      | awaitStep id => simp [reachesAwait] at h

/-- One loop iteration on a fiber whose next body event is an immediate
request: the callable is invoked once, the slot ends cleared, the fiber
is back to `READY_TO_RUN` with the rest of its script. -/
theorem runReadyFiberStep_immediate (fm : FM) (fid : Nat)
    (b : Except Err Unit) (rest : List BodyStep)
    (hscript : (fm.arena fid).script = .immediateStep b :: rest) :
    ((runReadyFiberStep fm fid).arena fid).state = .READY_TO_RUN ∧
    ((runReadyFiberStep fm fid).arena fid).script = rest ∧
    (runReadyFiberStep fm fid).immediateFunc = none ∧
    (runReadyFiberStep fm fid).awaitFunc = fm.awaitFunc ∧
    immInvocations (runReadyFiberStep fm fid).log
      = immInvocations fm.log + 1 ∧
    awaitInvocations (runReadyFiberStep fm fid).log
      = awaitInvocations fm.log := by
  cases b <;>
    simp [runReadyFiberStep, jumpContext, hscript, updateFiber,
      Function.update_same, logEvent, logHook]

/-- One loop iteration on a fiber whose next body event is an await
request: the await callback is installed, the fiber is `AWAITING`, and
nothing is invoked or logged by the loop itself. -/
theorem runReadyFiberStep_await (fm : FM) (fid : Nat) (id : Nat)
    (rest : List BodyStep)
    (hscript : (fm.arena fid).script = .awaitStep id :: rest) :
    ((runReadyFiberStep fm fid).arena fid).state = .AWAITING ∧
    ((runReadyFiberStep fm fid).arena fid).script = rest ∧
    (runReadyFiberStep fm fid).immediateFunc = fm.immediateFunc ∧
    (runReadyFiberStep fm fid).awaitFunc = some id ∧
    (runReadyFiberStep fm fid).log = fm.log := by
  simp [runReadyFiberStep, jumpContext, hscript, updateFiber,
    Function.update_same]

/-- One loop iteration on a fiber whose body returns: the wrapper's
return handling runs and the fiber becomes `INVALID`; the loop's
callback slots are untouched. -/
theorem runReadyFiberStep_ret (fm : FM) (fid : Nat)
    (hscript : (fm.arena fid).script = []) :
    ((runReadyFiberStep fm fid).arena fid).state = .INVALID ∧
    (runReadyFiberStep fm fid).immediateFunc = fm.immediateFunc ∧
    (runReadyFiberStep fm fid).awaitFunc = fm.awaitFunc ∧
    immInvocations (runReadyFiberStep fm fid).log
      = immInvocations fm.log ∧
    awaitInvocations (runReadyFiberStep fm fid).log
      = awaitInvocations fm.log := by
  rcases hk : (fm.arena fid).kind <;> rcases hr : (fm.arena fid).ret <;>
    simp [runReadyFiberStep, jumpContext, hscript, hk, hr, updateFiber,
      Function.update_same, logEvent, logHook]

/-- Driving the loop with enough fuel: each immediate request of the
body's leading segment is serviced exactly once, the loop itself never
invokes the await callback, the immediate slot ends empty, the await
slot holds exactly the first await request's callback (if one was
reached), and the fiber ends `AWAITING` at its first await request or
`INVALID` after its return. -/
theorem runReadyFiberGo_spec (fuel : Nat) :
    ∀ (fm : FM) (fid : Nat),
    (fm.arena fid).script.length < fuel →
    ((fm.arena fid).state = .NOT_STARTED ∨
     (fm.arena fid).state = .READY_TO_RUN) →
    fm.immediateFunc = none →
    fm.awaitFunc = none →
    immInvocations (runReadyFiberGo fuel fm fid).log
        = immInvocations fm.log
          + leadingImmediates (fm.arena fid).script ∧
    awaitInvocations (runReadyFiberGo fuel fm fid).log
        = awaitInvocations fm.log ∧
    (runReadyFiberGo fuel fm fid).immediateFunc = none ∧
    (runReadyFiberGo fuel fm fid).awaitFunc
        = firstAwaitId (fm.arena fid).script ∧
    ((runReadyFiberGo fuel fm fid).arena fid).state
        = (if reachesAwait (fm.arena fid).script then .AWAITING
           else .INVALID) := by
  induction fuel with
  | zero =>
      intro fm fid hfuel
      exact absurd hfuel (Nat.not_lt_zero _)
  | succ n ih =>
      intro fm fid hfuel hstate himm hawait
      rw [runReadyFiberGo, if_pos hstate]
      cases hs : (fm.arena fid).script with
      | nil =>
          obtain ⟨p1, p2, p3, p4, p5⟩ := runReadyFiberStep_ret fm fid hs
          rw [runReadyFiberGo_stuck n _ fid (by rw [p1]; simp)]
          refine ⟨?_, p5, p2.trans himm, ?_, ?_⟩
          · simp [p4, leadingImmediates]
          · simp [p3, hawait, firstAwaitId]
          · simp [p1, reachesAwait]
      | cons st rest =>
          cases st with
          | immediateStep bnd =>
              obtain ⟨h1, h2, h3, h4, h5, h6⟩ :=
                runReadyFiberStep_immediate fm fid bnd rest hs
              have hfuel2 :
                  ((runReadyFiberStep fm fid).arena fid).script.length
                    < n := by
                rw [h2]
                have := hfuel
                rw [hs] at this
                simpa using Nat.lt_of_succ_lt_succ this
              obtain ⟨g1, g2, g3, g4, g5⟩ :=
                ih (runReadyFiberStep fm fid) fid hfuel2 (Or.inr h1) h3
                  (h4.trans hawait)
              rw [h2] at g1 g4 g5
              refine ⟨?_, ?_, g3, ?_, ?_⟩
              · rw [g1, h5]
                simp only [leadingImmediates]
                omega
              · rw [g2, h6]
              · rw [g4]
                simp [firstAwaitId]
              · rw [g5]
                simp [reachesAwait]
          | awaitStep id =>
              obtain ⟨h1, h2, h3, h4, h5⟩ :=
                runReadyFiberStep_await fm fid id rest hs
              rw [runReadyFiberGo_stuck n _ fid (by rw [h1]; simp)]
              refine ⟨?_, by rw [h5], h3.trans himm, ?_, ?_⟩
              · simp [h5, leadingImmediates]
              · simp [h4, firstAwaitId]
              · simp [h1, reachesAwait]

theorem schedFrame_rfl (fm : FM) : schedFrame fm fm :=
  ⟨rfl, rfl, rfl, rfl, rfl, rfl, rfl, rfl, rfl, rfl⟩

theorem schedFrame_trans {a b c : FM} (h1 : schedFrame a b)
    (h2 : schedFrame b c) : schedFrame a c := by
  obtain ⟨x1, x2, x3, x4, x5, x6, x7, x8, x9, x10⟩ := h1
  obtain ⟨y1, y2, y3, y4, y5, y6, y7, y8, y9, y10⟩ := h2
  exact ⟨y1.trans x1, y2.trans x2, y3.trans x3, y4.trans x4,
    y5.trans x5, y6.trans x6, y7.trans x7, y8.trans x8,
    y9.trans x9, y10.trans x10⟩

theorem runReadyFiberStep_schedFrame (fm : FM) (fid : Nat) :
    schedFrame fm (runReadyFiberStep fm fid) := by
  cases hs : (fm.arena fid).script with
  | nil =>
      rcases hk : (fm.arena fid).kind <;>
      rcases hr : (fm.arena fid).ret <;>
        simp [schedFrame, runReadyFiberStep, jumpContext, hs, hk, hr,
          updateFiber, Function.update_same, logEvent, logHook]
  | cons st rest =>
      cases st with
      | immediateStep b =>
          cases b <;>
            simp [schedFrame, runReadyFiberStep, jumpContext, hs,
              updateFiber, Function.update_same, logEvent, logHook]
      | awaitStep id =>
          simp [schedFrame, runReadyFiberStep, jumpContext, hs,
            updateFiber, Function.update_same]

theorem runReadyFiberGo_schedFrame (fuel : Nat) :
    ∀ (fm : FM) (fid : Nat), schedFrame fm (runReadyFiberGo fuel fm fid)
    := by
  induction fuel with
  | zero => intro fm fid; exact schedFrame_rfl fm
  | succ n ih =>
      intro fm fid
      rw [runReadyFiberGo]
      split
      · exact schedFrame_trans (runReadyFiberStep_schedFrame fm fid)
          (ih (runReadyFiberStep fm fid) fid)
      · exact schedFrame_rfl fm

theorem finalizeFiber_wakeSched (fm : FM) (fid : Nat) :
    (finalizeFiber fm fid).wakeRequests = fm.wakeRequests ∧
    (finalizeFiber fm fid).isLoopScheduled = fm.isLoopScheduled ∧
    (finalizeFiber fm fid).nextId = fm.nextId := by
  simp only [finalizeFiber, runFinallySlot_eq]
  refine ⟨?_, ?_, ?_⟩ <;> (split <;> split <;> rfl)

/-- `runReadyFiber` never touches the scheduler's queues or its
scheduling flags, and changes the counters only by finalization:
the active count drops by at most one. -/
theorem runReadyFiber_frame (fm : FM) (fid : Nat) :
    (runReadyFiber fm fid).readyFibers = fm.readyFibers ∧
    (runReadyFiber fm fid).remoteReadyQueue = fm.remoteReadyQueue ∧
    (runReadyFiber fm fid).remoteTaskQueue = fm.remoteTaskQueue ∧
    (runReadyFiber fm fid).wakeRequests = fm.wakeRequests ∧
    (runReadyFiber fm fid).isLoopScheduled = fm.isLoopScheduled ∧
    fm.fibersActive - 1 ≤ (runReadyFiber fm fid).fibersActive ∧
    (runReadyFiber fm fid).fibersActive ≤ fm.fibersActive := by
  obtain ⟨x1, x2, x3, x4, x5, x6, x7, x8, x9, x10⟩ :=
    runReadyFiberGo_schedFrame
      (((({ fm with currentFiber := some fid } : FM)).arena fid).script.length + 1)
      { fm with currentFiber := some fid } fid
  simp only [runReadyFiber]
  split
  · split <;>
      exact ⟨by simp [logEvent, x1], by simp [logEvent, x2],
        by simp [logEvent, x3], by simp [logEvent, x9],
        by simp [logEvent, x10], by simp [logEvent, x5],
        by simp [logEvent, x5]⟩
  · split
    · exact ⟨by simp [finalizeFiber_readyFibers, x1],
        by simp [finalizeFiber_remoteReadyQueue, x2],
        by simp [finalizeFiber_remoteTaskQueue, x3],
        by simp [(finalizeFiber_wakeSched _ _).1, x9],
        by simp [(finalizeFiber_wakeSched _ _).2.1, x10],
        by simp [finalizeFiber_fibersActive, x5],
        by simp [finalizeFiber_fibersActive, x5]⟩
    · exact ⟨by simp [x1], by simp [x2], by simp [x3], by simp [x9],
        by simp [x10], by simp [x5], by simp [x5]⟩

/-- Draining the ready queue with fuel at least its length empties it,
touches no other queue and no scheduling flag, and only ever lowers the
active count. -/
theorem drainReady_spec : ∀ (fuel : Nat) (fm : FM),
    fm.readyFibers.length ≤ fuel →
    (drainReady fuel fm).readyFibers = [] ∧
    (drainReady fuel fm).remoteReadyQueue = fm.remoteReadyQueue ∧
    (drainReady fuel fm).remoteTaskQueue = fm.remoteTaskQueue ∧
    (drainReady fuel fm).wakeRequests = fm.wakeRequests ∧
    (drainReady fuel fm).isLoopScheduled = fm.isLoopScheduled ∧
    (drainReady fuel fm).fibersActive ≤ fm.fibersActive := by
  intro fuel
  induction fuel with
  | zero =>
      intro fm hlen
      have h0 : fm.readyFibers = [] := by
        cases h : fm.readyFibers with
        | nil => rfl
        | cons a l => rw [h] at hlen; simp at hlen
      rw [drainReady]
      exact ⟨h0, rfl, rfl, rfl, rfl, Nat.le_refl _⟩
  | succ n ih =>
      intro fm hlen
      rw [drainReady]
      cases h : fm.readyFibers with
      | nil => exact ⟨h, rfl, rfl, rfl, rfl, Nat.le_refl _⟩
      | cons fid rest =>
          obtain ⟨f1, f2, f3, f4, f5, f6, f7⟩ :=
            runReadyFiber_frame { fm with readyFibers := rest } fid
          have hlen2 :
              (runReadyFiber { fm with readyFibers := rest } fid).readyFibers.length ≤ n := by
            rw [f1]
            have := hlen
            rw [h] at this
            simpa using Nat.le_of_succ_le_succ this
          obtain ⟨g1, g2, g3, g4, g5, g6⟩ :=
            ih (runReadyFiber { fm with readyFibers := rest } fid) hlen2
          refine ⟨g1, ?_, ?_, ?_, ?_, ?_⟩
          · rw [g2, f2]
          · rw [g3, f3]
          · rw [g4, f4]
          · rw [g5, f5]
          · calc (drainReady n (runReadyFiber { fm with readyFibers := rest } fid)).fibersActive
                ≤ (runReadyFiber { fm with readyFibers := rest } fid).fibersActive := g6
              _ ≤ fm.fibersActive := f7

/-- Folding `runReadyFiber` over a list of remote-ready fibers touches
no queue and no scheduling flag, and only lowers the active count. -/
theorem foldl_runReadyFiber_frame : ∀ (l : List Nat) (s : FM),
    (l.foldl (fun t fid => runReadyFiber t fid) s).readyFibers
        = s.readyFibers ∧
    (l.foldl (fun t fid => runReadyFiber t fid) s).remoteReadyQueue
        = s.remoteReadyQueue ∧
    (l.foldl (fun t fid => runReadyFiber t fid) s).remoteTaskQueue
        = s.remoteTaskQueue ∧
    (l.foldl (fun t fid => runReadyFiber t fid) s).wakeRequests
        = s.wakeRequests ∧
    (l.foldl (fun t fid => runReadyFiber t fid) s).isLoopScheduled
        = s.isLoopScheduled ∧
    (l.foldl (fun t fid => runReadyFiber t fid) s).fibersActive
        ≤ s.fibersActive := by
  intro l
  induction l with
  | nil => intro s; exact ⟨rfl, rfl, rfl, rfl, rfl, Nat.le_refl _⟩
  | cons fid rest ih =>
      intro s
      obtain ⟨f1, f2, f3, f4, f5, f6, f7⟩ := runReadyFiber_frame s fid
      obtain ⟨g1, g2, g3, g4, g5, g6⟩ := ih (runReadyFiber s fid)
      exact ⟨g1.trans f1, g2.trans f2, g3.trans f3, g4.trans f4,
        g5.trans f5, Nat.le_trans g6 f7⟩

theorem sweepRemoteReady_spec (fm : FM) :
    (sweepRemoteReady fm).1.readyFibers = fm.readyFibers ∧
    (sweepRemoteReady fm).1.remoteReadyQueue = [] ∧
    (sweepRemoteReady fm).1.remoteTaskQueue = fm.remoteTaskQueue ∧
    (sweepRemoteReady fm).1.wakeRequests = fm.wakeRequests ∧
    (sweepRemoteReady fm).1.isLoopScheduled = fm.isLoopScheduled ∧
    (sweepRemoteReady fm).1.fibersActive ≤ fm.fibersActive ∧
    (sweepRemoteReady fm).2 = !fm.remoteReadyQueue.reverse.isEmpty := by
  obtain ⟨g1, g2, g3, g4, g5, g6⟩ :=
    foldl_runReadyFiber_frame fm.remoteReadyQueue.reverse
      { fm with remoteReadyQueue := [] }
  exact ⟨g1, g2, g3, g4, g5, g6, rfl⟩

/-- Unpacking one remote task touches no queue and no scheduling flag;
it acquires one fiber (active `+1`) and then runs it (active drops by at
most one), so the active count afterwards is at most `active + 1`. -/
theorem runRemoteTask_frame (fm : FM) (task : RemoteTask) :
    (runRemoteTask fm task).readyFibers = fm.readyFibers ∧
    (runRemoteTask fm task).remoteReadyQueue = fm.remoteReadyQueue ∧
    (runRemoteTask fm task).remoteTaskQueue = fm.remoteTaskQueue ∧
    (runRemoteTask fm task).wakeRequests = fm.wakeRequests ∧
    (runRemoteTask fm task).isLoopScheduled = fm.isLoopScheduled ∧
    (runRemoteTask fm task).fibersActive ≤ fm.fibersActive + 1 := by
  have key : ∀ (s : FM) (nid : Nat),
      s.readyFibers = fm.readyFibers →
      s.remoteReadyQueue = fm.remoteReadyQueue →
      s.remoteTaskQueue = fm.remoteTaskQueue →
      s.wakeRequests = fm.wakeRequests →
      s.isLoopScheduled = fm.isLoopScheduled →
      s.fibersActive = fm.fibersActive + 1 →
      (runReadyFiber s nid).readyFibers = fm.readyFibers ∧
      (runReadyFiber s nid).remoteReadyQueue = fm.remoteReadyQueue ∧
      (runReadyFiber s nid).remoteTaskQueue = fm.remoteTaskQueue ∧
      (runReadyFiber s nid).wakeRequests = fm.wakeRequests ∧
      (runReadyFiber s nid).isLoopScheduled = fm.isLoopScheduled ∧
      (runReadyFiber s nid).fibersActive ≤ fm.fibersActive + 1 := by
    intro s nid h1 h2 h3 h4 h5 h6
    obtain ⟨f1, f2, f3, f4, f5, f6, f7⟩ := runReadyFiber_frame s nid
    exact ⟨f1.trans h1, f2.trans h2, f3.trans h3, f4.trans h4,
      f5.trans h5, by omega⟩
  unfold runRemoteTask
  cases hp : fm.fibersPool with
  | nil =>
      cases hl : task.localData <;>
        · simp only [getFiber, hp, hl]
          apply key <;> simp [setFunction, updateFiber]
  | cons p ps =>
      cases hl : task.localData <;>
        · simp only [getFiber, hp, hl]
          apply key <;> simp [setFunction, updateFiber]

/-- Folding `runRemoteTask` over a list of remote tasks touches no queue
and no scheduling flag. -/
theorem foldl_runRemoteTask_frame : ∀ (l : List RemoteTask) (s : FM),
    (l.foldl runRemoteTask s).readyFibers = s.readyFibers ∧
    (l.foldl runRemoteTask s).remoteReadyQueue = s.remoteReadyQueue ∧
    (l.foldl runRemoteTask s).remoteTaskQueue = s.remoteTaskQueue ∧
    (l.foldl runRemoteTask s).wakeRequests = s.wakeRequests ∧
    (l.foldl runRemoteTask s).isLoopScheduled = s.isLoopScheduled := by
  intro l
  induction l with
  | nil => intro s; exact ⟨rfl, rfl, rfl, rfl, rfl⟩
  | cons task rest ih =>
      intro s
      obtain ⟨f1, f2, f3, f4, f5, _⟩ := runRemoteTask_frame s task
      obtain ⟨g1, g2, g3, g4, g5⟩ := ih (runRemoteTask s task)
      exact ⟨g1.trans f1, g2.trans f2, g3.trans f3, g4.trans f4,
        g5.trans f5⟩

theorem sweepRemoteTasks_spec (fm : FM) :
    (sweepRemoteTasks fm).1.readyFibers = fm.readyFibers ∧
    (sweepRemoteTasks fm).1.remoteReadyQueue = fm.remoteReadyQueue ∧
    (sweepRemoteTasks fm).1.remoteTaskQueue = [] ∧
    (sweepRemoteTasks fm).1.wakeRequests = fm.wakeRequests ∧
    (sweepRemoteTasks fm).1.isLoopScheduled = fm.isLoopScheduled ∧
    (sweepRemoteTasks fm).2 = !fm.remoteTaskQueue.reverse.isEmpty := by
  obtain ⟨g1, g2, g3, g4, g5⟩ :=
    foldl_runRemoteTask_frame fm.remoteTaskQueue.reverse
      { fm with remoteTaskQueue := [] }
  exact ⟨g1, g2, g3, g4, g5, rfl⟩

/-- Any run of the outer loop with at least one unit of fuel reaches the
fixed point: the local ready queue and both remote queues end empty —
each inner pass drains the ready queue fully and clears both remote
queues, and in the single-threaded model nothing refills them. -/
theorem loopUntilNoReadyGo_empties : ∀ (n : Nat) (fm : FM),
    (loopUntilNoReadyGo (n + 1) fm).readyFibers = [] ∧
    (loopUntilNoReadyGo (n + 1) fm).remoteReadyQueue = [] ∧
    (loopUntilNoReadyGo (n + 1) fm).remoteTaskQueue = [] := by
  have pass : ∀ fm : FM,
      (sweepRemoteTasks (sweepRemoteReady
        (drainReady fm.readyFibers.length fm)).1).1.readyFibers = [] ∧
      (sweepRemoteTasks (sweepRemoteReady
        (drainReady fm.readyFibers.length fm)).1).1.remoteReadyQueue
          = [] ∧
      (sweepRemoteTasks (sweepRemoteReady
        (drainReady fm.readyFibers.length fm)).1).1.remoteTaskQueue
          = [] := by
    intro fm
    obtain ⟨d1, d2, d3, d4, d5, d6⟩ :=
      drainReady_spec fm.readyFibers.length fm (Nat.le_refl _)
    obtain ⟨r1, r2, r3, r4, r5, r6, r7⟩ :=
      sweepRemoteReady_spec (drainReady fm.readyFibers.length fm)
    obtain ⟨t1, t2, t3, t4, t5, t6⟩ :=
      sweepRemoteTasks_spec
        (sweepRemoteReady (drainReady fm.readyFibers.length fm)).1
    exact ⟨t1.trans (r1.trans d1), t2.trans r2, t3⟩
  intro n
  induction n with
  | zero =>
      intro fm
      rw [loopUntilNoReadyGo]
      split
      · rw [loopUntilNoReadyGo]
        exact pass fm
      · exact pass fm
  | succ m ih =>
      intro fm
      rw [loopUntilNoReadyGo]
      split
      · exact ih _
      · exact pass fm

theorem loopGo_eq_specOuter : ∀ (n : Nat) (fm : FM),
    loopUntilNoReadyGo n fm = specOuterLoop n fm := by
  intro n
  induction n with
  | zero => intro fm; rfl
  | succ m ih =>
      intro fm
      rw [loopUntilNoReadyGo, specOuterLoop]
      simp only [specInnerPass]
      cases hb : ((sweepRemoteReady
          (drainReady fm.readyFibers.length fm)).2 ||
        (sweepRemoteTasks (sweepRemoteReady
          (drainReady fm.readyFibers.length fm)).1).2) <;>
        simp [hb, ih]

theorem countersOk_congr {a b : FM}
    (hact : b.fibersActive = a.fibersActive)
    (hall : b.fibersAllocated = a.fibersAllocated)
    (hps : b.fibersPoolSize = a.fibersPoolSize)
    (hmx : b.maxFibersPoolSize = a.maxFibersPoolSize)
    (hpl : b.fibersPool = a.fibersPool)
    (hrf : b.readyFibers = a.readyFibers)
    (hrr : b.remoteReadyQueue = a.remoteReadyQueue)
    (h : countersOk a) : countersOk b := by
  unfold countersOk queuedCount at *
  rw [hact, hall, hps, hmx, hpl, hrf, hrr]
  exact h

@[simp] theorem ensureLoopScheduled_fibersActive (fm : FM) :
    (ensureLoopScheduled fm).fibersActive = fm.fibersActive := by
  unfold ensureLoopScheduled; split <;> rfl

@[simp] theorem ensureLoopScheduled_fibersAllocated (fm : FM) :
    (ensureLoopScheduled fm).fibersAllocated = fm.fibersAllocated := by
  unfold ensureLoopScheduled; split <;> rfl

@[simp] theorem ensureLoopScheduled_fibersPoolSize (fm : FM) :
    (ensureLoopScheduled fm).fibersPoolSize = fm.fibersPoolSize := by
  unfold ensureLoopScheduled; split <;> rfl

@[simp] theorem ensureLoopScheduled_maxPool (fm : FM) :
    (ensureLoopScheduled fm).maxFibersPoolSize = fm.maxFibersPoolSize := by
  unfold ensureLoopScheduled; split <;> rfl

@[simp] theorem ensureLoopScheduled_fibersPool (fm : FM) :
    (ensureLoopScheduled fm).fibersPool = fm.fibersPool := by
  unfold ensureLoopScheduled; split <;> rfl

@[simp] theorem ensureLoopScheduled_readyFibers (fm : FM) :
    (ensureLoopScheduled fm).readyFibers = fm.readyFibers := by
  unfold ensureLoopScheduled; split <;> rfl

@[simp] theorem ensureLoopScheduled_remoteReadyQueue (fm : FM) :
    (ensureLoopScheduled fm).remoteReadyQueue = fm.remoteReadyQueue := by
  unfold ensureLoopScheduled; split <;> rfl

theorem getFiber_countersOk (fm : FM) (h : countersOk fm) :
    countersOk (getFiber fm).1 ∧
    (getFiber fm).1.fibersActive = fm.fibersActive + 1 ∧
    queuedCount (getFiber fm).1 = queuedCount fm := by
  obtain ⟨h1, h2, h3, h4⟩ := h
  unfold queuedCount at h2
  cases hp : fm.fibersPool with
  | nil =>
      rw [hp] at h3
      simp only [List.length_nil] at h3
      refine ⟨⟨?_, ?_, ?_, ?_⟩, ?_, ?_⟩ <;>
        simp [getFiber, hp, updateFiber, queuedCount, h3] <;> omega
  | cons p ps =>
      rw [hp] at h3
      simp only [List.length_cons] at h3
      rw [h3] at h1 h4
      refine ⟨⟨?_, ?_, ?_, ?_⟩, ?_, ?_⟩ <;>
        simp [getFiber, hp, updateFiber, queuedCount, h3] <;> omega

theorem runReadyFiber_countersOk (fm : FM) (fid : Nat)
    (h : countersOk fm) (hlt : queuedCount fm < fm.fibersActive) :
    countersOk (runReadyFiber fm fid) := by
  obtain ⟨x1, x2, x3, x4, x5, x6, x7, x8, x9, x10⟩ :=
    runReadyFiberGo_schedFrame
      (((({ fm with currentFiber := some fid } : FM)).arena fid).script.length + 1)
      { fm with currentFiber := some fid } fid
  obtain ⟨h1, h2, h3, h4⟩ := h
  unfold queuedCount at h2 hlt
  simp only at x1 x2 x3 x4 x5 x6 x7 x8 x9 x10
  simp only [runReadyFiber]
  split
  · split <;>
      exact countersOk_congr (by simp [logEvent, x5]) (by simp [logEvent, x6])
        (by simp [logEvent, x7]) (by simp [logEvent, x8])
        (by simp [logEvent, x4]) (by simp [logEvent, x1])
        (by simp [logEvent, x2]) ⟨h1, h2, h3, h4⟩
  · split
    · rename_i hinv
      by_cases hc :
          (runReadyFiberGo
            (((({ fm with currentFiber := some fid } : FM)).arena fid).script.length + 1)
            { fm with currentFiber := some fid } fid).fibersPoolSize <
          (runReadyFiberGo
            (((({ fm with currentFiber := some fid } : FM)).arena fid).script.length + 1)
            { fm with currentFiber := some fid } fid).maxFibersPoolSize
      · obtain ⟨r1, r2, r3⟩ := finalizeFiber_recycle _ fid hc
        unfold countersOk queuedCount
        rw [x7, x8] at hc
        refine ⟨?_, ?_, ?_, ?_⟩ <;>
          simp [finalizeFiber_readyFibers, finalizeFiber_remoteReadyQueue,
            finalizeFiber_fibersActive, finalizeFiber_maxPool,
            r1, r2, r3, x1, x2, x4, x5, x6, x7, x8,
            queuedCount] <;>
          omega
      · obtain ⟨r1, r2, r3⟩ := finalizeFiber_dealloc _ fid hc
        unfold countersOk queuedCount
        rw [x7, x8] at hc
        refine ⟨?_, ?_, ?_, ?_⟩ <;>
          simp [finalizeFiber_readyFibers, finalizeFiber_remoteReadyQueue,
            finalizeFiber_fibersActive, finalizeFiber_maxPool,
            r1, r2, r3, x1, x2, x4, x5, x6, x7, x8,
            queuedCount] <;>
          omega
    · exact countersOk_congr (by simp [x5]) (by simp [x6]) (by simp [x7])
        (by simp [x8]) (by simp [x4]) (by simp [x1]) (by simp [x2])
        ⟨h1, h2, h3, h4⟩

theorem drainReady_countersOk : ∀ (fuel : Nat) (fm : FM),
    countersOk fm → countersOk (drainReady fuel fm) := by
  intro fuel
  induction fuel with
  | zero => intro fm h; rw [drainReady]; exact h
  | succ n ih =>
      intro fm h
      rw [drainReady]
      cases hq : fm.readyFibers with
      | nil => exact h
      | cons fid rest =>
          apply ih
          apply runReadyFiber_countersOk
          · obtain ⟨h1, h2, h3, h4⟩ := h
            unfold queuedCount at h2
            rw [hq] at h2
            simp only [List.length_cons] at h2
            exact ⟨h1, by unfold queuedCount; simp; omega, h3, h4⟩
          · obtain ⟨h1, h2, h3, h4⟩ := h
            unfold queuedCount at h2
            rw [hq] at h2
            simp only [List.length_cons] at h2
            unfold queuedCount
            simp
            omega

theorem foldl_runReadyFiber_countersOk : ∀ (l : List Nat) (s : FM),
    countersOk s → queuedCount s + l.length ≤ s.fibersActive →
    countersOk (l.foldl (fun t fid => runReadyFiber t fid) s) := by
  intro l
  induction l with
  | nil => intro s h _; exact h
  | cons fid rest ih =>
      intro s h hb
      simp only [List.foldl_cons]
      obtain ⟨f1, f2, f3, f4, f5, f6, f7⟩ := runReadyFiber_frame s fid
      apply ih
      · apply runReadyFiber_countersOk s fid h
        simp only [List.length_cons] at hb
        omega
      · have hqe : queuedCount (runReadyFiber s fid) = queuedCount s := by
          unfold queuedCount
          rw [f1, f2]
        rw [hqe]
        simp only [List.length_cons] at hb
        omega

theorem sweepRemoteReady_countersOk (fm : FM) (h : countersOk fm) :
    countersOk (sweepRemoteReady fm).1 := by
  obtain ⟨h1, h2, h3, h4⟩ := h
  unfold queuedCount at h2
  apply foldl_runReadyFiber_countersOk
  · exact ⟨h1, by unfold queuedCount; simp; omega, h3, h4⟩
  · unfold queuedCount
    simp
    omega

theorem runRemoteTask_countersOk (fm : FM) (task : RemoteTask)
    (h : countersOk fm) : countersOk (runRemoteTask fm task) := by
  obtain ⟨hg, hact, hq⟩ := getFiber_countersOk fm h
  have h2 := h.2.1
  unfold runRemoteTask
  rcases hgf : getFiber fm with ⟨s, nid⟩
  rw [hgf] at hg hact hq
  simp only at hg hact hq
  cases hl : task.localData <;>
    · apply runReadyFiber_countersOk
      · exact countersOk_congr (by simp [setFunction, updateFiber])
          (by simp [setFunction, updateFiber])
          (by simp [setFunction, updateFiber])
          (by simp [setFunction, updateFiber])
          (by simp [setFunction, updateFiber])
          (by simp [setFunction, updateFiber])
          (by simp [setFunction, updateFiber]) hg
      · have hlt : queuedCount s < s.fibersActive := by
          rw [hq, hact]
          unfold queuedCount at h2 ⊢
          omega
        unfold queuedCount at hlt ⊢
        simp [setFunction, updateFiber]
        omega

theorem foldl_runRemoteTask_countersOk : ∀ (l : List RemoteTask) (s : FM),
    countersOk s → countersOk (l.foldl runRemoteTask s) := by
  intro l
  induction l with
  | nil => intro s h; exact h
  | cons task rest ih =>
      intro s h
      simp only [List.foldl_cons]
      exact ih _ (runRemoteTask_countersOk s task h)

theorem sweepRemoteTasks_countersOk (fm : FM) (h : countersOk fm) :
    countersOk (sweepRemoteTasks fm).1 := by
  apply foldl_runRemoteTask_countersOk
  obtain ⟨h1, h2, h3, h4⟩ := h
  unfold queuedCount at h2
  exact ⟨h1, by unfold queuedCount; simp; omega, h3, h4⟩

theorem loopUntilNoReadyGo_countersOk : ∀ (n : Nat) (fm : FM),
    countersOk fm → countersOk (loopUntilNoReadyGo n fm) := by
  intro n
  induction n with
  | zero => intro fm h; exact h
  | succ m ih =>
      intro fm h
      rw [loopUntilNoReadyGo]
      have hd := drainReady_countersOk fm.readyFibers.length fm h
      have hs1 := sweepRemoteReady_countersOk _ hd
      have hs2 := sweepRemoteTasks_countersOk _ hs1
      split
      · exact ih _ hs2
      · exact hs2

theorem addTask_countersOk (fm : FM) (s : List BodyStep)
    (r : Except Err Nat) (h : countersOk fm) :
    countersOk (addTask fm s r) := by
  obtain ⟨hg, hact, hq⟩ := getFiber_countersOk fm h
  have h2 := h.2.1
  unfold addTask
  rcases hgf : getFiber fm with ⟨t, fid⟩
  rw [hgf] at hg hact hq
  simp only at hg hact hq
  obtain ⟨g1, g2, g3, g4⟩ := hg
  unfold queuedCount at hq h2 g2
  unfold countersOk queuedCount
  cases hc : t.currentFiber <;>
    · refine ⟨?_, ?_, ?_, ?_⟩ <;>
        simp [hc, setFunction, updateFiber] <;> omega

theorem addTaskFinally_countersOk (fm : FM) (s : List BodyStep)
    (r : Except Err Nat) (g : Except Err Nat → Except Err Unit)
    (h : countersOk fm) : countersOk (addTaskFinally fm s r g) := by
  obtain ⟨hg, hact, hq⟩ := getFiber_countersOk fm h
  have h2 := h.2.1
  unfold addTaskFinally
  rcases hgf : getFiber fm with ⟨t, fid⟩
  rw [hgf] at hg hact hq
  simp only at hg hact hq
  obtain ⟨g1, g2, g3, g4⟩ := hg
  unfold queuedCount at hq h2 g2
  unfold countersOk queuedCount
  cases hc : t.currentFiber <;>
    · refine ⟨?_, ?_, ?_, ?_⟩ <;>
        simp [hc, setFunctionFinally, updateFiber] <;> omega

theorem addTaskRemote_countersOk (fm : FM) (caller : Option FM)
    (s : List BodyStep) (r : Except Err Nat) (h : countersOk fm) :
    countersOk (addTaskRemote fm caller s r) := by
  obtain ⟨h1, h2, h3, h4⟩ := h
  unfold queuedCount at h2
  unfold addTaskRemote
  by_cases hw : fm.remoteTaskQueue.isEmpty <;>
    · unfold countersOk queuedCount
      simp [hw]
      omega

theorem loopUntilNoReady_countersOk (fm : FM) (h : countersOk fm) :
    countersOk (loopUntilNoReady fm).2 := by
  obtain ⟨h1, h2, h3, h4⟩ := h
  obtain ⟨g1, g2, g3, g4⟩ :=
    loopUntilNoReadyGo_countersOk
      (fm.remoteReadyQueue.length + fm.remoteTaskQueue.length + 2)
      { fm with currentManagerSet := true } ⟨h1, h2, h3, h4⟩
  exact ⟨g1, g2, g3, g4⟩

/-! ## Claims -/

/-- C7: every call to `addTaskRemote` pushes exactly one envelope onto
the remote task queue, and issues a `scheduleThreadSafe` wake request iff
the push transitions that queue from empty to non-empty (the
empty-to-non-empty report of `insertHead` is the sole wake trigger). -/
theorem claim_C7_remote_wake_on_empty_transition (fm : FM)
    (callerFm : Option FM) (s : List BodyStep) (r : Except Err Nat) :
    (addTaskRemote fm callerFm s r).wakeRequests =
      fm.wakeRequests + (if fm.remoteTaskQueue = [] then 1 else 0) ∧
    (addTaskRemote fm callerFm s r).remoteTaskQueue.length =
      fm.remoteTaskQueue.length + 1 := by
  unfold addTaskRemote
  by_cases h : fm.remoteTaskQueue = [] <;>
    simp [h, List.isEmpty_iff]

/-- C9: `runInMainContext` called while no fiber is active executes the
callable synchronously in place: the caller receives the callable's own
outcome (a fault propagating unchanged) and the manager state — every
fiber, queue, slot, counter and the scheduling flag — is left exactly as
it was. -/
theorem claim_C9_direct_call_synchronous (fm : FM) (f : Except Err Nat)
    (g : Except Err Unit) (h : fm.activeFiber = none) :
    runInMainContextNonVoid fm f = (f, fm) ∧
    runInMainContextVoid fm g = (g, fm) := by
  unfold runInMainContextNonVoid runInMainContextVoid
  rw [h]
  exact ⟨rfl, rfl⟩

theorem claim_C9_witness :
    FM.init.activeFiber = none ∧
    runInMainContextNonVoid FM.init (.ok 5) = (.ok 5, FM.init) ∧
    runInMainContextVoid FM.init (.error 2) = (.error 2, FM.init) :=
  ⟨rfl,
   (claim_C9_direct_call_synchronous FM.init (.ok 5) (.error 2) rfl).1,
   (claim_C9_direct_call_synchronous FM.init (.ok 5) (.error 2) rfl).2⟩

/-- C1 counterexample: the claim asserts the fault is re-raised to the
`runInMainContext` caller "for every result type of f, including void".
For the void overload (lines 357-369) the raw callable is installed as
`immediateFunc_`, so its fault is caught by `runReadyFiber` (line 53) and
reported to the hook; the helper returns normally.  Concretely, with an
active fiber and a void callable faulting with 7: the caller receives a
normal return (not the fault), and the fault shows up only in the hook
log. -/
theorem claim_C1_counterexample :
    (runInMainContextVoid { FM.init with activeFiber := some 0 }
        (.error 7)).1 = .ok () ∧
    (runInMainContextVoid { FM.init with activeFiber := some 0 }
        (.error 7)).1 ≠ .error 7 ∧
    hookLog (runInMainContextVoid { FM.init with activeFiber := some 0 }
        (.error 7)).2 = [(7, Phase.runningImmediateFunc)] := by
  decide

/-- C1 (amended): for every call to `runInMainContext(f)` made from
inside a running fiber, a fault raised by `f` on the manager's context is
re-raised synchronously to the caller when `f`'s result type is NON-void
(and nothing is reported to the fault hook); for a void result type the
fault is instead delivered only to the fault hook with phase
`running immediateFunc_`, and the call returns normally. -/
theorem claim_C1_immediate_fault_reraise (fm : FM) (fid : Nat) (e : Err)
    (h : fm.activeFiber = some fid) :
    (runInMainContextNonVoid fm (.error e)).1 = .error e ∧
    hookLog (runInMainContextNonVoid fm (.error e)).2 = hookLog fm ∧
    (runInMainContextVoid fm (.error e)).1 = .ok () ∧
    hookLog (runInMainContextVoid fm (.error e)).2 =
      hookLog fm ++ [(e, Phase.runningImmediateFunc)] := by
  unfold runInMainContextNonVoid runInMainContextVoid
  rw [h]
  refine ⟨rfl, hookLog_logEvent_immediate fm, rfl, ?_⟩
  rw [hookLog_logHook, hookLog_logEvent_immediate]

theorem claim_C1_immediate_fault_reraise_witness :
    ({ FM.init with activeFiber := some 0 } : FM).activeFiber = some 0 ∧
    ((runInMainContextNonVoid { FM.init with activeFiber := some 0 }
        (.error 3)).1 = .error 3 ∧
     hookLog (runInMainContextNonVoid { FM.init with activeFiber := some 0 }
        (.error 3)).2 = hookLog { FM.init with activeFiber := some 0 } ∧
     (runInMainContextVoid { FM.init with activeFiber := some 0 }
        (.error 3)).1 = .ok () ∧
     hookLog (runInMainContextVoid { FM.init with activeFiber := some 0 }
        (.error 3)).2 = hookLog { FM.init with activeFiber := some 0 } ++
          [(3, Phase.runningImmediateFunc)]) :=
  ⟨rfl, claim_C1_immediate_fault_reraise
    { FM.init with activeFiber := some 0 } 0 3 rfl⟩

/-- C4: when a running fiber preempts with `AWAITING_IMMEDIATE` (its next
body event is an immediate-execution request with boundary behavior `b`),
the very next iteration of the `runReadyFiber` loop: invokes the supplied
callable on the manager's own context exactly once, with a fault isolated
to the fault hook (phase `running immediateFunc_`); clears the slot; sets
the fiber back to `READY_TO_RUN`; and continues the loop with the SAME
fiber in the same scheduling turn — no queue (local ready, remote-ready,
remote-task, pool) is touched. -/
theorem claim_C4_immediate_handled_same_turn (fm : FM) (fid : Nat)
    (fuel : Nat) (b : Except Err Unit) (rest : List BodyStep)
    (hstate : (fm.arena fid).state = .NOT_STARTED ∨
              (fm.arena fid).state = .READY_TO_RUN)
    (hscript : (fm.arena fid).script = .immediateStep b :: rest) :
    runReadyFiberGo (fuel + 1) fm fid
        = runReadyFiberGo fuel (runReadyFiberStep fm fid) fid ∧
    ((runReadyFiberStep fm fid).arena fid).state = .READY_TO_RUN ∧
    ((runReadyFiberStep fm fid).arena fid).script = rest ∧
    (runReadyFiberStep fm fid).immediateFunc = none ∧
    (runReadyFiberStep fm fid).readyFibers = fm.readyFibers ∧
    (runReadyFiberStep fm fid).remoteReadyQueue = fm.remoteReadyQueue ∧
    (runReadyFiberStep fm fid).remoteTaskQueue = fm.remoteTaskQueue ∧
    (runReadyFiberStep fm fid).fibersPool = fm.fibersPool ∧
    hookLog (runReadyFiberStep fm fid) = hookLog fm ++
      (match b with
       | .error e => [(e, Phase.runningImmediateFunc)]
       | .ok _ => []) ∧
    immInvocations (runReadyFiberStep fm fid).log
      = immInvocations fm.log + 1 := by
  refine ⟨by rw [runReadyFiberGo, if_pos hstate], ?_⟩
  cases b with
  | ok u =>
      simp [runReadyFiberStep, jumpContext, updateFiber, hscript,
        logEvent, logHook, hookLog, immInvocations,
        List.filterMap_append, List.filter_append]
  | error e =>
      simp [runReadyFiberStep, jumpContext, updateFiber, hscript,
        logEvent, logHook, hookLog, immInvocations,
        List.filterMap_append, List.filter_append]

theorem claim_C4_immediate_handled_same_turn_witness :
    ((fmC4.arena 0).state = FiberState.NOT_STARTED ∨
     (fmC4.arena 0).state = FiberState.READY_TO_RUN) ∧
    (fmC4.arena 0).script = [BodyStep.immediateStep (.error 1)] ∧
    (runReadyFiberGo 3 fmC4 0
        = runReadyFiberGo 2 (runReadyFiberStep fmC4 0) 0 ∧
     ((runReadyFiberStep fmC4 0).arena 0).state = .READY_TO_RUN ∧
     ((runReadyFiberStep fmC4 0).arena 0).script = [] ∧
     (runReadyFiberStep fmC4 0).immediateFunc = none ∧
     (runReadyFiberStep fmC4 0).readyFibers = fmC4.readyFibers ∧
     (runReadyFiberStep fmC4 0).remoteReadyQueue = fmC4.remoteReadyQueue ∧
     (runReadyFiberStep fmC4 0).remoteTaskQueue = fmC4.remoteTaskQueue ∧
     (runReadyFiberStep fmC4 0).fibersPool = fmC4.fibersPool ∧
     hookLog (runReadyFiberStep fmC4 0) = hookLog fmC4 ++
       [(1, Phase.runningImmediateFunc)] ∧
     immInvocations (runReadyFiberStep fmC4 0).log
       = immInvocations fmC4.log + 1) :=
  ⟨Or.inl (by decide), by decide,
   claim_C4_immediate_handled_same_turn fmC4 0 2 (.error 1) []
     (Or.inl (by decide)) (by decide)⟩

theorem arena_ensureLoopScheduled (fm : FM) :
    (ensureLoopScheduled fm).arena = fm.arena := by
  unfold ensureLoopScheduled
  split <;> rfl

/-- C8: a task submitted from inside a running fiber receives a snapshot
of the submitting fiber's local-data taken at submission time:
(a) `addTask` copies the submitter's blob into the new fiber;
(b) mutating the submitter's blob afterwards (through `local<T>()`) does
not affect the new task's copy;
(c) `addTaskRemote` invoked on a thread running some manager's fiber
captures that fiber's blob in the envelope (a value snapshot);
(d) `addTask` with no running fiber at the call site inherits nothing;
(e) `addTaskRemote` from a thread running no fiber captures nothing. -/
theorem claim_C8_localdata_snapshot
    (fm : FM) (cur : Nat) (d : Option LocalData)
    (s : List BodyStep) (r : Except Err Nat) (d2 : LocalData)
    (cfm : FM) (ccur : Nat)
    (hcur : fm.currentFiber = some cur)
    (hd : (fm.arena cur).localData = d)
    (hpool : cur ∉ fm.fibersPool)
    (hfresh : cur ≠ fm.nextId)
    (hccur : cfm.currentFiber = some ccur) :
    ((addTask fm s r).arena (newFiberId fm)).localData = d ∧
    ((setLocalData (addTask fm s r) cur d2).arena
        (newFiberId fm)).localData = d ∧
    (addTaskRemote fm (some cfm) s r).remoteTaskQueue =
      { script := s, ret := r, localData := (cfm.arena ccur).localData }
        :: fm.remoteTaskQueue ∧
    (∀ fm0 : FM, fm0.currentFiber = none → fm0.fibersPool = [] →
      ((addTask fm0 s r).arena (newFiberId fm0)).localData = none) ∧
    (∀ fm0 : FM, (addTaskRemote fm0 none s r).remoteTaskQueue =
      { script := s, ret := r, localData := none }
        :: fm0.remoteTaskQueue) := by
  have hne : newFiberId fm ≠ cur := by
    intro hEq
    unfold newFiberId at hEq
    cases hp : fm.fibersPool with
    | nil => rw [hp] at hEq; exact hfresh hEq.symm
    | cons p rest =>
        rw [hp] at hEq
        simp only at hEq
        apply hpool
        rw [hp, ← hEq]
        exact List.mem_cons_self p rest
  have ha : ((addTask fm s r).arena (newFiberId fm)).localData = d := by
    cases hp : fm.fibersPool with
    | nil =>
        simp [addTask, getFiber, hp, newFiberId, hcur, setFunction,
          updateFiber, arena_ensureLoopScheduled, Function.update_apply,
          Ne.symm hfresh, hfresh, hd]
    | cons p rest =>
        have hcp : cur ≠ p := by
          intro h
          apply hpool
          rw [hp, h]
          exact List.mem_cons_self p rest
        simp [addTask, getFiber, hp, newFiberId, hcur, setFunction,
          updateFiber, arena_ensureLoopScheduled, Function.update_apply,
          hcp, Ne.symm hcp, hd]
  refine ⟨ha, ?_, ?_, ?_, ?_⟩
  · rw [setLocalData, arena_updateFiber_other _ _ _ _ hne]
    exact ha
  · simp only [addTaskRemote, hccur]
    split <;> rfl
  · intro fm0 h0 hp0
    simp [addTask, getFiber, hp0, newFiberId, h0, setFunction,
      updateFiber, arena_ensureLoopScheduled, Function.update_apply]
  · intro fm0
    simp only [addTaskRemote]
    split <;> rfl

theorem claim_C8_localdata_snapshot_witness :
    (fmC8.currentFiber = some 0 ∧
     (fmC8.arena 0).localData = some 11 ∧
     0 ∉ fmC8.fibersPool ∧
     0 ≠ fmC8.nextId) ∧
    (((addTask fmC8 [] (.ok 0)).arena (newFiberId fmC8)).localData
        = some 11 ∧
     ((setLocalData (addTask fmC8 [] (.ok 0)) 0 99).arena
        (newFiberId fmC8)).localData = some 11 ∧
     (addTaskRemote fmC8 (some fmC8) [] (.ok 0)).remoteTaskQueue =
       { script := [], ret := .ok 0, localData := (fmC8.arena 0).localData }
         :: fmC8.remoteTaskQueue ∧
     (∀ fm0 : FM, fm0.currentFiber = none → fm0.fibersPool = [] →
       ((addTask fm0 [] (.ok 0)).arena (newFiberId fm0)).localData
         = none) ∧
     (∀ fm0 : FM, (addTaskRemote fm0 none [] (.ok 0)).remoteTaskQueue =
       { script := [], ret := .ok 0, localData := none }
         :: fm0.remoteTaskQueue)) :=
  ⟨⟨rfl, by decide, by decide, by decide⟩,
   claim_C8_localdata_snapshot fmC8 0 (some 11) [] (.ok 0) 99 fmC8 0
     rfl (by decide) (by decide) (by decide) rfl⟩

/-- C2: a fault raised by a task body submitted via `addTask` is caught
by the installed `AddTaskHelper::Func` wrapper at the fiber boundary and
delivered to the fault hook with phase `running Func functor`; the fiber
is finalized normally (`INVALID`) and no queue of the scheduler is
disturbed — the fault never escapes into the scheduling loop.  The same
holds for a task submitted via `addTaskRemote` once it is unpacked and
run on the owning thread, with the fiber trampoline's phase
`running func_`. -/
theorem claim_C2_task_fault_contained (fm fmr : FM) (fid : Nat)
    (e er : Err)
    (hstate : (fm.arena fid).state = .NOT_STARTED)
    (hscript : (fm.arena fid).script = [])
    (hkind : (fm.arena fid).kind = .plainLocal)
    (hret : (fm.arena fid).ret = .error e)
    (hfin : (fm.arena fid).finallyPresent = false)
    (hpoolr : fmr.fibersPool = []) :
    hookLog (runReadyFiber fm fid)
        = hookLog fm ++ [(e, Phase.runningFuncFunctor)] ∧
    (runReadyFiber fm fid).readyFibers = fm.readyFibers ∧
    (runReadyFiber fm fid).remoteReadyQueue = fm.remoteReadyQueue ∧
    (runReadyFiber fm fid).remoteTaskQueue = fm.remoteTaskQueue ∧
    ((runReadyFiber fm fid).arena fid).state = .INVALID ∧
    hookLog (runRemoteTask fmr { script := [], ret := .error er })
        = hookLog fmr ++ [(er, Phase.runningFunc)] := by
  obtain ⟨hlog, hrq, hrr, hrt, _, _, hstinv, _, _⟩ :=
    runReadyFiber_completed fm fid (Or.inl hstate) hscript
  refine ⟨?_, hrq, hrr, hrt, hstinv, ?_⟩
  · rw [hookLog, hlog, hookEntries_append]
    simp [hookLog, bodyReturnEvents, hkind, hret, finallyEventsOf, hfin]
  · have key : ∀ (fmQ : FM) (nid : Nat),
        (fmQ.arena nid).state = .NOT_STARTED →
        (fmQ.arena nid).script = [] →
        (fmQ.arena nid).kind = .plainRemote →
        (fmQ.arena nid).ret = .error er →
        (fmQ.arena nid).finallyPresent = false →
        fmQ.log = fmr.log →
        hookLog (runReadyFiber fmQ nid)
          = hookLog fmr ++ [(er, Phase.runningFunc)] := by
      intro fmQ nid h1 h2 h3 h4 h5 h6
      obtain ⟨hlog2, _⟩ := runReadyFiber_completed fmQ nid (Or.inl h1) h2
      rw [hookLog, hlog2, hookEntries_append, h6]
      simp [hookLog, bodyReturnEvents, h3, h4, finallyEventsOf, h5]
    simp only [runRemoteTask, getFiber, hpoolr]
    apply key <;>
      simp [setFunction, updateFiber, Function.update_same]

/-- C3: for an `addTaskFinally(f, finally)` task, `finally` is invoked
exactly once after `f` finishes, receiving `f`'s outcome as a
success-or-fault wrapper (`Try`, here `Except`), for both a normal and a
faulting `f`; a fault raised inside `finally` is reported to the fault
hook (phase `running Finally functor`) only; the finally slot is cleared
afterwards; and `addTaskFinally` itself returns right after scheduling —
it never runs `finally` and receives no fault. -/
theorem claim_C3_finally_exactly_once (fm : FM) (fid : Nat)
    (r : Except Err Nat) (g : Except Err Nat → Except Err Unit)
    (hstate : (fm.arena fid).state = .NOT_STARTED)
    (hscript : (fm.arena fid).script = [])
    (hkind : (fm.arena fid).kind = .withFinally)
    (hret : (fm.arena fid).ret = r)
    (hfinp : (fm.arena fid).finallyPresent = true)
    (hfing : (fm.arena fid).finallyBehavior = g) :
    finallyDeliveries (runReadyFiber fm fid).log
        = finallyDeliveries fm.log ++ [r] ∧
    hookLog (runReadyFiber fm fid) = hookLog fm ++
      (match g r with
       | .error e2 => [(e2, Phase.runningFinallyFunctor)]
       | .ok _ => []) ∧
    ((runReadyFiber fm fid).arena fid).finallyPresent = false ∧
    (∀ (fm0 : FM) (s0 : List BodyStep) (r0 : Except Err Nat)
       (g0 : Except Err Nat → Except Err Unit),
       (addTaskFinally fm0 s0 r0 g0).log = fm0.log) := by
  obtain ⟨hlog, _, _, _, _, _, _, hfp, _⟩ :=
    runReadyFiber_completed fm fid (Or.inl hstate) hscript
  refine ⟨?_, ?_, hfp, ?_⟩
  · rw [hlog]
    cases hgr : g r <;>
      simp [bodyReturnEvents, hkind, finallyEventsOf, hfinp, hret,
        hfing, hgr]
  · rw [hookLog, hlog, hookEntries_append]
    cases hgr : g r <;>
      simp [hookLog, bodyReturnEvents, hkind, finallyEventsOf, hfinp,
        hret, hfing, hgr]
  · intro fm0 s0 r0 g0
    cases hp : fm0.fibersPool <;>
    cases hc : fm0.currentFiber <;>
      simp [addTaskFinally, getFiber, hp, hc, setFunctionFinally,
        updateFiber, log_ensureLoopScheduled]

theorem claim_C2_task_fault_contained_witness :
    ((fmC2.arena 0).state = FiberState.NOT_STARTED ∧
     (fmC2.arena 0).script = [] ∧
     (fmC2.arena 0).kind = TaskKind.plainLocal ∧
     (fmC2.arena 0).ret = .error 3 ∧
     (fmC2.arena 0).finallyPresent = false ∧
     FM.init.fibersPool = []) ∧
    (hookLog (runReadyFiber fmC2 0)
        = hookLog fmC2 ++ [(3, Phase.runningFuncFunctor)] ∧
     (runReadyFiber fmC2 0).readyFibers = fmC2.readyFibers ∧
     (runReadyFiber fmC2 0).remoteReadyQueue = fmC2.remoteReadyQueue ∧
     (runReadyFiber fmC2 0).remoteTaskQueue = fmC2.remoteTaskQueue ∧
     ((runReadyFiber fmC2 0).arena 0).state = .INVALID ∧
     hookLog (runRemoteTask FM.init { script := [], ret := .error 5 })
        = hookLog FM.init ++ [(5, Phase.runningFunc)]) :=
  ⟨⟨by decide, by decide, by decide, by decide, by decide, rfl⟩,
   claim_C2_task_fault_contained fmC2 FM.init 0 3 5
     (by decide) (by decide) (by decide) (by decide) (by decide) rfl⟩

theorem claim_C3_finally_exactly_once_witness :
    ((fmC3.arena 0).state = FiberState.NOT_STARTED ∧
     (fmC3.arena 0).script = [] ∧
     (fmC3.arena 0).kind = TaskKind.withFinally ∧
     (fmC3.arena 0).ret = .error 4 ∧
     (fmC3.arena 0).finallyPresent = true ∧
     (fmC3.arena 0).finallyBehavior = gC3) ∧
    (finallyDeliveries (runReadyFiber fmC3 0).log
        = finallyDeliveries fmC3.log ++ [.error 4] ∧
     hookLog (runReadyFiber fmC3 0)
        = hookLog fmC3 ++ [(14, Phase.runningFinallyFunctor)] ∧
     ((runReadyFiber fmC3 0).arena 0).finallyPresent = false ∧
     (∀ (fm0 : FM) (s0 : List BodyStep) (r0 : Except Err Nat)
        (g0 : Except Err Nat → Except Err Unit),
        (addTaskFinally fm0 s0 r0 g0).log = fm0.log)) :=
  ⟨⟨by decide, by decide, by decide, by decide, by decide, rfl⟩,
   claim_C3_finally_exactly_once fmC3 0 (.error 4) gC3
     (by decide) (by decide) (by decide) (by decide) (by decide) rfl⟩

/-- C10: after the scheduler services a fiber's suspension requests, the
stored callback slots are cleared back to empty before any further fiber
is run: one complete `runReadyFiber` pass leaves `immediateFunc_` and
`awaitFunc_` both empty, having invoked the immediate-execution callable
exactly once per immediate request (even a faulting one) and the await
setup callback exactly once if the body suspended — so no suspend
request's callable can be invoked a second time by a later scheduling
step. -/
theorem claim_C10_slots_invoked_once_then_cleared (fm : FM) (fid : Nat)
    (hstate : (fm.arena fid).state = .NOT_STARTED)
    (himm : fm.immediateFunc = none)
    (hawait : fm.awaitFunc = none) :
    (runReadyFiber fm fid).immediateFunc = none ∧
    (runReadyFiber fm fid).awaitFunc = none ∧
    immInvocations (runReadyFiber fm fid).log
      = immInvocations fm.log
        + leadingImmediates (fm.arena fid).script ∧
    awaitInvocations (runReadyFiber fm fid).log
      = awaitInvocations fm.log
        + (if reachesAwait (fm.arena fid).script then 1 else 0) := by
  obtain ⟨g1, g2, g3, g4, g5⟩ :=
    runReadyFiberGo_spec ((fm.arena fid).script.length + 1)
      { fm with currentFiber := some fid } fid
      (Nat.lt_succ_self _) (Or.inl hstate) himm hawait
  simp only [runReadyFiber]
  by_cases hra : reachesAwait ((fm.arena fid).script) = true
  · simp only [hra, if_true] at g5
    obtain ⟨id, hid⟩ := firstAwaitId_of_reachesAwait _ hra
    rw [hid] at g4
    rw [g5, g4]
    simp [logEvent, g1, g2, g3, hra]
  · simp only [hra, if_false] at g5
    rw [firstAwaitId_of_not_reachesAwait _ (by simpa using hra)] at g4
    rw [g5]
    simp [g1, g2, g3, g4, hra, finalizeFiber_log,
      finalizeFiber_immediateFunc, finalizeFiber_awaitFunc,
      immInvocations_finallyEventsOf, awaitInvocations_finallyEventsOf]

theorem claim_C10_slots_invoked_once_then_cleared_witness :
    ((fmC10.arena 0).state = FiberState.NOT_STARTED ∧
     fmC10.immediateFunc = none ∧
     fmC10.awaitFunc = none) ∧
    ((runReadyFiber fmC10 0).immediateFunc = none ∧
     (runReadyFiber fmC10 0).awaitFunc = none ∧
     immInvocations (runReadyFiber fmC10 0).log
       = immInvocations fmC10.log
         + leadingImmediates ((fmC10.arena 0).script) ∧
     awaitInvocations (runReadyFiber fmC10 0).log
       = awaitInvocations fmC10.log
         + (if reachesAwait ((fmC10.arena 0).script) then 1 else 0)) :=
  ⟨⟨by decide, rfl, rfl⟩,
   claim_C10_slots_invoked_once_then_cleared fmC10 0
     (by decide) rfl rfl⟩

/-- C6: one call to `loopUntilNoReady` runs the two-level fixed point
the spec describes — it coincides with `loopUntilNoReadySpec`, the
direct transcription of the spec's wording (inner pass: drain the local
ready queue fully, then sweep the remote-ready queue once and the
remote-task queue once; outer loop: repeat while the previous pass
obtained remote work) — the fixed point is really reached (all three
queues end empty), and the call returns `true` iff at least one fiber is
still active afterwards. -/
theorem claim_C6_two_level_fixed_point (fm : FM) :
    loopUntilNoReady fm = loopUntilNoReadySpec fm ∧
    (loopUntilNoReady fm).2.readyFibers = [] ∧
    (loopUntilNoReady fm).2.remoteReadyQueue = [] ∧
    (loopUntilNoReady fm).2.remoteTaskQueue = [] ∧
    ((loopUntilNoReady fm).1 = true ↔
      0 < (loopUntilNoReady fm).2.fibersActive) := by
  obtain ⟨e1, e2, e3⟩ := loopUntilNoReadyGo_empties
    (fm.remoteReadyQueue.length + fm.remoteTaskQueue.length + 1)
    { fm with currentManagerSet := true }
  refine ⟨?_, ?_, ?_, ?_, ?_⟩
  · simp only [loopUntilNoReady, loopUntilNoReadySpec,
      loopGo_eq_specOuter]
  · simpa [loopUntilNoReady] using e1
  · simpa [loopUntilNoReady] using e2
  · simpa [loopUntilNoReady] using e3
  · simp [loopUntilNoReady]

/-- C5: from any observation point satisfying the counter invariant, the
spec's accounting holds — `allocated = active + queued + pooled` (with
the C++ `fibersActive_` counter covering both running/awaiting and
queued fibers) and `pooled ≤ configured max` — and the invariant is
preserved by every operation: the three submission APIs, a full
scheduling pass, and running one fiber; in particular finalization
preserves it, with recycling (chosen exactly when the pool is below its
configured maximum) incrementing the pooled count without changing the
allocation count, and permanent deallocation decrementing the allocation
count. -/
theorem claim_C5_counters_invariant (fm : FM) (h : countersOk fm) :
    (fm.fibersAllocated
        = specActive fm + queuedCount fm + fm.fibersPoolSize ∧
     fm.fibersPoolSize ≤ fm.maxFibersPoolSize) ∧
    (∀ (s : List BodyStep) (r : Except Err Nat),
       countersOk (addTask fm s r)) ∧
    (∀ (s : List BodyStep) (r : Except Err Nat)
       (g : Except Err Nat → Except Err Unit),
       countersOk (addTaskFinally fm s r g)) ∧
    (∀ (caller : Option FM) (s : List BodyStep) (r : Except Err Nat),
       countersOk (addTaskRemote fm caller s r)) ∧
    countersOk (loopUntilNoReady fm).2 ∧
    (∀ fid : Nat, queuedCount fm < fm.fibersActive →
       countersOk (runReadyFiber fm fid)) ∧
    (∀ fid : Nat,
       (fm.fibersPoolSize < fm.maxFibersPoolSize →
          (finalizeFiber fm fid).fibersPoolSize = fm.fibersPoolSize + 1 ∧
          (finalizeFiber fm fid).fibersAllocated = fm.fibersAllocated ∧
          (finalizeFiber fm fid).fibersActive = fm.fibersActive - 1) ∧
       (¬ fm.fibersPoolSize < fm.maxFibersPoolSize →
          (finalizeFiber fm fid).fibersPoolSize = fm.fibersPoolSize ∧
          (finalizeFiber fm fid).fibersAllocated
              = fm.fibersAllocated - 1 ∧
          (finalizeFiber fm fid).fibersActive = fm.fibersActive - 1)) := by
  refine ⟨?_, ?_, ?_, ?_, ?_, ?_, ?_⟩
  · obtain ⟨h1, h2, h3, h4⟩ := h
    unfold specActive
    exact ⟨by omega, h4⟩
  · intro s r
    exact addTask_countersOk fm s r h
  · intro s r g
    exact addTaskFinally_countersOk fm s r g h
  · intro caller s r
    exact addTaskRemote_countersOk fm caller s r h
  · exact loopUntilNoReady_countersOk fm h
  · intro fid hlt
    exact runReadyFiber_countersOk fm fid h hlt
  · intro fid
    constructor
    · intro hc
      obtain ⟨r1, r2, _⟩ := finalizeFiber_recycle fm fid hc
      exact ⟨r1, r2, finalizeFiber_fibersActive fm fid⟩
    · intro hc
      obtain ⟨r1, r2, _⟩ := finalizeFiber_dealloc fm fid hc
      exact ⟨r1, r2, finalizeFiber_fibersActive fm fid⟩

theorem claim_C5_counters_invariant_witness :
    countersOk fmC5 ∧
    ((fmC5.fibersAllocated
        = specActive fmC5 + queuedCount fmC5 + fmC5.fibersPoolSize ∧
      fmC5.fibersPoolSize ≤ fmC5.maxFibersPoolSize) ∧
     (∀ (s : List BodyStep) (r : Except Err Nat),
        countersOk (addTask fmC5 s r)) ∧
     (∀ (s : List BodyStep) (r : Except Err Nat)
        (g : Except Err Nat → Except Err Unit),
        countersOk (addTaskFinally fmC5 s r g)) ∧
     (∀ (caller : Option FM) (s : List BodyStep) (r : Except Err Nat),
        countersOk (addTaskRemote fmC5 caller s r)) ∧
     countersOk (loopUntilNoReady fmC5).2 ∧
     (∀ fid : Nat, queuedCount fmC5 < fmC5.fibersActive →
        countersOk (runReadyFiber fmC5 fid)) ∧
     (∀ fid : Nat,
        (fmC5.fibersPoolSize < fmC5.maxFibersPoolSize →
           (finalizeFiber fmC5 fid).fibersPoolSize
               = fmC5.fibersPoolSize + 1 ∧
           (finalizeFiber fmC5 fid).fibersAllocated
               = fmC5.fibersAllocated ∧
           (finalizeFiber fmC5 fid).fibersActive
               = fmC5.fibersActive - 1) ∧
        (¬ fmC5.fibersPoolSize < fmC5.maxFibersPoolSize →
           (finalizeFiber fmC5 fid).fibersPoolSize
               = fmC5.fibersPoolSize ∧
           (finalizeFiber fmC5 fid).fibersAllocated
               = fmC5.fibersAllocated - 1 ∧
           (finalizeFiber fmC5 fid).fibersActive
               = fmC5.fibersActive - 1))) :=
  ⟨by decide, claim_C5_counters_invariant fmC5 (by decide)⟩

end FollyFibers
